import Mathlib

/-!
Verification of the echopan feed-synchronization and publication pipeline.

This file gives a shallow embedding of the Go program: the relational store
is a `DB` value holding lists of records in primary-key order, GORM query and
find-or-create primitives become explicit list searches (struct conditions
ignore zero-valued fields, as GORM does), and the external collaborators
(feed fetcher, HTTP downloader, Telegram sender, process environment) are
passed in as explicit functions.  The publish pipeline additionally records a
trace of externally observable effects (`Ev`) so that ordering and halting
behaviour can be stated.  Go strings are modelled as Lean `String`s.
-/

namespace Echopan

/-- Bool test: is `n` a prefix of the second list (used to model
Go strings.Contains). -/
def strPrefixAt : List Char → List Char → Bool
  | [], _ => true
  | _ :: _, [] => false
  | a :: as, b :: bs => a == b && strPrefixAt as bs

/-- Does needle `n` occur as a contiguous run inside the haystack? -/
def strInfixAt (n : List Char) : List Char → Bool
  | [] => strPrefixAt n []
  | c :: t => strPrefixAt n (c :: t) || strInfixAt n t

/-- Model of Go strings.Contains(s, sub). -/
def strContains (s sub : String) : Bool :=
  strInfixAt sub.data s.data

/-- Model of Go strconv.ParseUint(s, 10, 64): a non-empty all-digit string
whose value fits in 64 bits parses; everything else is an error (`none`). -/
def parseUint (s : String) : Option Nat :=
  if s.data = [] then none
  else if s.data.all (fun c => c.isDigit) then
    let n := s.data.foldl (fun acc c => acc * 10 + (c.toNat - 48)) 0
    if n < 2 ^ 64 then some n else none
  else none

/-- One enclosure of a fetched feed item (gofeed.Enclosure): URL, textual
length and media type. -/
structure SrcEnclosure where
  url : String := ""
  length : String := ""
  type : String := ""
  deriving DecidableEq, Repr

/-- The iTunes extension block of a fetched item (gofeed.ITunesItemExt).
Only the subtitle is modelled; the other copied fields play no role in any
claim. -/
structure SrcItunes where
  subtitle : String := ""
  deriving DecidableEq, Repr

/-- A fetched feed item (gofeed.Item), restricted to the fields the core
reads. -/
structure SrcItem where
  title : String := ""
  description : String := ""
  content : String := ""
  link : String := ""
  published : String := ""
  publishedParsed : Option Nat := none
  itunesExt : Option SrcItunes := none
  enclosures : List SrcEnclosure := []
  deriving DecidableEq, Repr

/-- The image block of a fetched document (gofeed.Image). -/
structure SrcImage where
  url : String := ""
  title : String := ""
  deriving DecidableEq, Repr

/-- A fetched feed document (gofeed.Feed). -/
structure FeedDoc where
  title : String := ""
  description : String := ""
  link : String := ""
  image : Option SrcImage := none
  items : List SrcItem := []
  deriving DecidableEq, Repr

/-- Persisted models.Feed record. -/
structure FeedRec where
  id : Nat := 0
  title : String := ""
  description : String := ""
  link : String := ""
  feed : String := ""
  publishReady : Bool := false
  tgChannel : Int := 0
  extraLinkEnabled : Bool := false
  extraLink : String := ""
  deriving DecidableEq, Repr

/-- Persisted models.Item record (the fields the core reads or writes;
timestamps are abstract `Option Nat` instants, `none` modelling NULL). -/
structure ItemRec where
  id : Nat := 0
  title : String := ""
  description : String := ""
  content : String := ""
  link : String := ""
  published : String := ""
  publishedParsed : Option Nat := none
  tgPublished : Nat := 0
  feedId : Nat := 0
  itunesSubtitle : String := ""
  deriving DecidableEq, Repr

/-- Persisted models.Enclosure record (length already parsed to a number). -/
structure EncRec where
  id : Nat := 0
  url : String := ""
  length : Nat := 0
  type : String := ""
  itemId : Nat := 0
  deriving DecidableEq, Repr

/-- Persisted models.Image record. -/
structure ImageRec where
  id : Nat := 0
  url : String := ""
  title : String := ""
  feedId : Nat := 0
  deriving DecidableEq, Repr

/-- The relational store: record lists in primary-key (insertion) order plus
the next auto-assigned ids. -/
structure DB where
  feeds : List FeedRec := []
  items : List ItemRec := []
  enclosures : List EncRec := []
  images : List ImageRec := []
  nextFeedId : Nat := 1
  nextItemId : Nat := 1
  nextEncId : Nat := 1
  nextImageId : Nat := 1
  deriving DecidableEq, Repr

/-- The candidate models.Item built by updateItems from one fetched item:
every descriptive field copied, TgPublished forced to 0, FeedId set to the
target feed. -/
def mkCandidate (feed : FeedRec) (v : SrcItem) : ItemRec :=
  { title := v.title
    description := v.description
    content := v.content
    link := v.link
    published := v.published
    publishedParsed := v.publishedParsed
    tgPublished := 0
    feedId := feed.id
    itunesSubtitle := match v.itunesExt with | some it => it.subtitle | none => "" }

/-- db.Where(Item with Title only).Attrs(item).FirstOrCreate: query by title
(a zero-valued title imposes no condition, as in GORM); when found the
existing record is returned and nothing is written, otherwise the candidate
is inserted with a fresh id. -/
def firstOrCreateItem (db : DB) (cand : ItemRec) : DB × ItemRec :=
  match db.items.find? (fun r => cand.title == "" || r.title == cand.title) with
  | some r => (db, r)
  | none =>
    let newRec := { cand with id := db.nextItemId }
    ({ db with items := db.items ++ [newRec], nextItemId := db.nextItemId + 1 }, newRec)

/-- The struct condition a FirstOrCreate call derives from a full enclosure
value: zero-valued fields impose no condition. -/
def encCondMatch (cand : EncRec) (r : EncRec) : Bool :=
  (cand.url == "" || r.url == cand.url) &&
  (cand.length == 0 || r.length == cand.length) &&
  (cand.type == "" || r.type == cand.type) &&
  (cand.itemId == 0 || r.itemId == cand.itemId)

/-- db.Where(Enclosure with Url).FirstOrCreate(new Enclosure, enclosure):
the Where clause conditions on the URL and the conds argument on every
non-zero field; on a miss the enclosure is inserted with a fresh id. -/
def firstOrCreateEnclosure (db : DB) (cand : EncRec) : DB :=
  match db.enclosures.find?
      (fun r => (cand.url == "" || r.url == cand.url) && encCondMatch cand r) with
  | some _ => db
  | none =>
    { db with enclosures := db.enclosures ++ [{ cand with id := db.nextEncId }]
              nextEncId := db.nextEncId + 1 }

/-- The enclosure loop of updateItems for one item: parse each length with
ParseUint and fail fast on the first parse error, find-or-create on success. -/
def addEnclosures (db : DB) (itemId : Nat) : List SrcEnclosure → DB × Option String
  | [] => (db, none)
  | e :: rest =>
    match parseUint e.length with
    | none => (db, some ("failed to parse enclosure length for URL " ++ e.url))
    | some n =>
      let db2 := firstOrCreateEnclosure db
        { url := e.url, length := n, type := e.type, itemId := itemId }
      addEnclosures db2 itemId rest

/-- updateItems: for each fetched item build the candidate, find-or-create
it by title, then process its enclosures; an enclosure parse failure returns
the error at once, leaving everything already written in place and skipping
all later items. -/
def updateItems (db : DB) (items : List SrcItem) (feed : FeedRec) : DB × Option String :=
  match items with
  | [] => (db, none)
  | v :: rest =>
    let fc := firstOrCreateItem db (mkCandidate feed v)
    match addEnclosures fc.1 fc.2.id v.enclosures with
    | (db2, some e) => (db2, some e)
    | (db2, none) => updateItems db2 rest feed

/-- updateItem: set tg_published to 1 on the row whose id matches. -/
def updateItem (db : DB) (item : ItemRec) : DB :=
  { db with items :=
      db.items.map (fun r => if r.id == item.id then { r with tgPublished := 1 } else r) }

/-- The publication state of the row with primary key `j` (none when no such
row exists). -/
def stateOf (db : DB) (j : Nat) : Option Nat :=
  (db.items.find? (fun r => r.id == j)).map (fun r => r.tgPublished)

/-- Number of persisted items bearing exactly the given title. -/
def countTitled (db : DB) (x : String) : Nat :=
  (db.items.filter (fun r => r.title == x)).length

/-- Struct condition of the image FirstOrCreate call: Where on the feed id
plus the conds derived from the full image value (zero fields ignored). -/
def imageCondMatch (fid : Nat) (cand : ImageRec) (r : ImageRec) : Bool :=
  (fid == 0 || r.feedId == fid) &&
  (cand.url == "" || r.url == cand.url) &&
  (cand.title == "" || r.title == cand.title) &&
  (cand.feedId == 0 || r.feedId == cand.feedId)

/-- db.Where(Image with FeedId).FirstOrCreate(new Image, image). -/
def firstOrCreateImage (db : DB) (fid : Nat) (cand : ImageRec) : DB :=
  match db.images.find? (fun r => imageCondMatch fid cand r) with
  | some _ => db
  | none =>
    { db with images := db.images ++ [{ cand with id := db.nextImageId }]
              nextImageId := db.nextImageId + 1 }

/-- addFeed: fetch the document, then resolve the Feed record: by exact
source URL first (returning immediately when found), else by exact title
when the fetched title is non-empty, else create; afterwards find-or-create
the document image for the resolved feed. -/
def addFeed (db : DB) (fetch : String → Except String FeedDoc) (feedURL : String) :
    DB × Except String FeedRec :=
  match fetch feedURL with
  | .error e => (db, .error ("error parsing feed URL " ++ feedURL ++ ": " ++ e))
  | .ok feedData =>
    let mf : FeedRec :=
      { title := feedData.title, description := feedData.description
        link := feedData.link, feed := feedURL }
    match db.feeds.find? (fun f => feedURL == "" || f.feed == feedURL) with
    | some existing => (db, .ok existing)
    | none =>
      let res :=
        if mf.title == "" then
          let newF := { mf with id := db.nextFeedId }
          ({ db with feeds := db.feeds ++ [newF], nextFeedId := db.nextFeedId + 1 }, newF)
        else
          match db.feeds.find? (fun f => f.title == mf.title) with
          | some g => (db, g)
          | none =>
            let newF := { mf with id := db.nextFeedId }
            ({ db with feeds := db.feeds ++ [newF], nextFeedId := db.nextFeedId + 1 }, newF)
      let db2 :=
        match feedData.image with
        | some img => firstOrCreateImage res.1 res.2.id
            { url := img.url, title := img.title, feedId := res.2.id }
        | none => res.1
      (db2, .ok res.2)

/-- The loop of checkFeeds over the feed list captured at entry: per-feed
fetch failures and updateItems failures set the aggregate error flag and
processing continues; at most the first 9 fetched items are ingested. -/
def checkFeedsLoop (fetch : String → Except String FeedDoc) :
    List FeedRec → DB → Bool → DB × Bool
  | [], db, errFlag => (db, errFlag)
  | f :: rest, db, errFlag =>
    match fetch f.feed with
    | .error _ => checkFeedsLoop fetch rest db true
    | .ok feedData =>
      let sel := if feedData.items.length > 9 then feedData.items.take 9 else feedData.items
      match updateItems db sel f with
      | (db2, some _) => checkFeedsLoop fetch rest db2 true
      | (db2, none) => checkFeedsLoop fetch rest db2 errFlag

/-- checkFeeds: iterate every persisted feed; the Bool is the aggregate
did-anything-fail flag the call turns into its error result. -/
def checkFeeds (db : DB) (fetch : String → Except String FeedDoc) : DB × Bool :=
  checkFeedsLoop fetch db.feeds db false

/-- fullFeed: resolve one feed by title (not-found and fetch errors are
terminal), ingest at most the first 200 fetched items. -/
def fullFeed (db : DB) (fetch : String → Except String FeedDoc) (feedTitle : String) :
    DB × Option String :=
  match db.feeds.find? (fun f => feedTitle == "" || f.title == feedTitle) with
  | none => (db, some ("failed to find feed " ++ feedTitle))
  | some feed =>
    match fetch feed.feed with
    | .error e => (db, some ("error parsing feed " ++ feed.title ++ ": " ++ e))
    | .ok feedData =>
      let sel := if feedData.items.length > 200 then feedData.items.take 200 else feedData.items
      updateItems db sel feed

/-- Ascending order on publish instants as ORDER BY published_parsed asc
sorts them (NULL first). -/
def ppLe (a b : Option Nat) : Bool :=
  match a, b with
  | none, _ => true
  | some _, none => false
  | some x, some y => decide (x ≤ y)

/-- The sort relation on item rows used by the unpublished-item queries. -/
def itemPPLe (a b : ItemRec) : Prop :=
  ppLe a.publishedParsed b.publishedParsed = true

instance : DecidableRel itemPPLe := fun a b =>
  inferInstanceAs (Decidable (ppLe a.publishedParsed b.publishedParsed = true))

/-- getUnpublishedItems: rows of the feed with tg_published = 0, ordered by
published_parsed ascending. -/
def getUnpublishedItems (db : DB) (feed : FeedRec) : List ItemRec :=
  List.insertionSort itemPPLe
    (db.items.filter (fun r => r.feedId == feed.id && r.tgPublished == 0))

/-- getFirstUnpublishedItem: the same query with First, i.e. the head of the
ordered unpublished list (none models gorm.ErrRecordNotFound). -/
def getFirstUnpublishedItem (db : DB) (feed : FeedRec) : Option ItemRec :=
  (getUnpublishedItems db feed).head?

/-- getReadyFeeds: feeds with the publish-ready flag set. -/
def getReadyFeeds (db : DB) : List FeedRec :=
  db.feeds.filter (fun f => f.publishReady)

/-- Externally observable effects of the publish pipeline, in the order they
happen: an HTTP download of an enclosure, a Telegram send attempt, marking a
row published, removing the temp file, taking the fatal-configuration branch,
and terminating the process (os.Exit). -/
inductive Ev where
  | download (itemId : Nat)
  | sendAttempt (itemId : Nat)
  | markPublished (itemId : Nat)
  | deleteFile (itemId : Nat)
  | configFailure (itemId : Nat)
  | exitProcess
  deriving DecidableEq, Repr

/-- The payload handed to bot.Send: channel, local file, Markdown filename
and composed caption. -/
structure SendReq where
  channel : Int
  file : String
  fileName : String
  caption : String
  deriving DecidableEq, Repr

/-- The ambient process environment and external collaborators of the
publish pipeline: whether EP_TG_BOT_TOKEN is set, whether telebot.NewBot
fails, the send outcome (none is success, some is the error text), and the
HTTP download outcome for a URL. -/
structure PubEnv where
  tokenSet : Bool
  newBotError : Option String := none
  send : SendReq → Option String
  downloadFile : String → Except String String

/-- The subtitle segment of the caption: the item subtitle, truncated to 800
with an ellipsis when longer, emptied when the feed id of the item is 34,
then the extra link appended after a blank line when the feed enables it. -/
def captionSubtitle (feed : FeedRec) (item : ItemRec) : String :=
  let s := if item.itunesSubtitle.length > 800
           then item.itunesSubtitle.take 800 ++ "..." else item.itunesSubtitle
  let s2 := if item.feedId == 34 then "" else s
  if feed.extraLinkEnabled then s2 ++ "\n\n" ++ feed.extraLink else s2

/-- The full caption: the title in Markdown emphasis, a blank line, the
subtitle segment. -/
def captionText (feed : FeedRec) (item : ItemRec) : String :=
  "*" ++ item.title ++ "*" ++ "\n\n" ++ captionSubtitle feed item

/-- The telebot.Audio payload publishToTheChannel builds. -/
def mkSendReq (feed : FeedRec) (item : ItemRec) (episodeFile : String) : SendReq :=
  { channel := feed.tgChannel
    file := episodeFile
    fileName := "*" ++ item.title ++ "*.mp3"
    caption := captionText feed item }

/-- publishToTheChannel on its real path (nil bot instance): a missing token
is a configuration error returned before the bot exists, a bot-creation
failure is wrapped, then the send outcome is classified — success, oversize
and non-UTF-8 errors come back as nil, everything else as a wrapped error.
The event list records whether a send was attempted. -/
def publishToTheChannel (env : PubEnv) (feed : FeedRec) (item : ItemRec)
    (episodeFile : String) : Option String × List Ev :=
  if env.tokenSet = false then (some "EP_TG_BOT_TOKEN is not set", [])
  else
    match env.newBotError with
    | some e => (some ("failed to create Telegram bot: " ++ e), [])
    | none =>
      match env.send (mkSendReq feed item episodeFile) with
      | none => (none, [Ev.sendAttempt item.id])
      | some msg =>
        if strContains msg "Request Entity Too Large" then (none, [Ev.sendAttempt item.id])
        else if strContains msg "text must be encoded in UTF-8" then
          (none, [Ev.sendAttempt item.id])
        else
          (some ("error sending message for item " ++ item.title ++ ": " ++ msg),
           [Ev.sendAttempt item.id])

/-- downloadEpisode: look up at most one enclosure of the item; none at all
yields an empty path and no error without touching the network, otherwise
the enclosure URL is downloaded. -/
def downloadEpisode (env : PubEnv) (db : DB) (item : ItemRec) :
    Except String String × List Ev :=
  match db.enclosures.find? (fun e => item.id == 0 || e.itemId == item.id) with
  | none => (.ok "", [])
  | some enc =>
    match env.downloadFile enc.url with
    | .error e =>
      (.error ("failed to download file from " ++ enc.url ++ ": " ++ e), [Ev.download item.id])
    | .ok path => (.ok path, [Ev.download item.id])

/-- The error test publish and publishOneItem apply to decide that a publish
error is the fatal configuration case. -/
def isConfigErr (e : String) : Bool :=
  e == "EP_TG_BOT_TOKEN is not set" || strContains e "failed to create Telegram bot"

/-- The body of the inner loop of publish for one item: download failure and
missing enclosure still mark the row published; a configuration error exits
the process (nothing written, no file deleted); any other publish error
deletes the file and leaves the row unpublished; success marks the row
published and deletes the file.  The Bool is the did-os.Exit flag. -/
def publishItemStep (env : PubEnv) (db : DB) (feed : FeedRec) (item : ItemRec) :
    DB × List Ev × Bool :=
  match downloadEpisode env db item with
  | (.error _, evs) => (updateItem db item, evs ++ [Ev.markPublished item.id], false)
  | (.ok path, evs) =>
    if path == "" then (updateItem db item, evs ++ [Ev.markPublished item.id], false)
    else
      match publishToTheChannel env feed item path with
      | (some e, evs2) =>
        if isConfigErr e then
          (db, evs ++ evs2 ++ [Ev.configFailure item.id, Ev.exitProcess], true)
        else (db, evs ++ evs2 ++ [Ev.deleteFile item.id], false)
      | (none, evs2) =>
        (updateItem db item,
         evs ++ evs2 ++ [Ev.markPublished item.id, Ev.deleteFile item.id], false)

/-- The inner loop of publish over the unpublished items selected for one
feed; an os.Exit stops everything at once. -/
def publishItemsLoop (env : PubEnv) (feed : FeedRec) :
    List ItemRec → DB → DB × List Ev × Bool
  | [], db => (db, [], false)
  | it :: rest, db =>
    let r := publishItemStep env db feed it
    if r.2.2 then r
    else
      let r2 := publishItemsLoop env feed rest r.1
      (r2.1, r.2.1 ++ r2.2.1, r2.2.2)

/-- The outer loop of publish over the ready feeds. -/
def publishFeedsLoop (env : PubEnv) : List FeedRec → DB → DB × List Ev × Bool
  | [], db => (db, [], false)
  | f :: rest, db =>
    let r := publishItemsLoop env f (getUnpublishedItems db f) db
    if r.2.2 then r
    else
      let r2 := publishFeedsLoop env rest r.1
      (r2.1, r.2.1 ++ r2.2.1, r2.2.2)

/-- publish: drain every unpublished item of every ready feed. -/
def publish (env : PubEnv) (db : DB) : DB × List Ev × Bool :=
  publishFeedsLoop env (getReadyFeeds db) db

/-- The body of publishOneItem for one ready feed: as publishItemStep,
except that the configuration-error branch only logs — the temp file is
still deleted and the loop then moves on to the next feed. -/
def publishOneFeedStep (env : PubEnv) (db : DB) (feed : FeedRec) : DB × List Ev :=
  match getFirstUnpublishedItem db feed with
  | none => (db, [])
  | some item =>
    match downloadEpisode env db item with
    | (.error _, evs) => (updateItem db item, evs ++ [Ev.markPublished item.id])
    | (.ok path, evs) =>
      if path == "" then (updateItem db item, evs ++ [Ev.markPublished item.id])
      else
        match publishToTheChannel env feed item path with
        | (some e, evs2) =>
          if isConfigErr e then
            (db, evs ++ evs2 ++ [Ev.configFailure item.id, Ev.deleteFile item.id])
          else (db, evs ++ evs2 ++ [Ev.deleteFile item.id])
        | (none, evs2) =>
          (updateItem db item,
           evs ++ evs2 ++ [Ev.markPublished item.id, Ev.deleteFile item.id])

/-- The loop of publishOneItem over the ready feeds (it never halts early). -/
def publishOneLoop (env : PubEnv) : List FeedRec → DB → DB × List Ev
  | [], db => (db, [])
  | f :: rest, db =>
    let r := publishOneFeedStep env db f
    let r2 := publishOneLoop env rest r.1
    (r2.1, r.2 ++ r2.2)

/-- publishOneItem: publish at most one item per ready feed. -/
def publishOneItem (env : PubEnv) (db : DB) : DB × List Ev :=
  publishOneLoop env (getReadyFeeds db) db

/-! ### Basic store lemmas -/

theorem firstOrCreateEnclosure_items (db : DB) (c : EncRec) :
    (firstOrCreateEnclosure db c).items = db.items := by
  unfold firstOrCreateEnclosure; split <;> rfl

theorem firstOrCreateEnclosure_enc (db : DB) (c : EncRec) :
    ∃ t, (firstOrCreateEnclosure db c).enclosures = db.enclosures ++ t ∧
      ∀ r ∈ t, r.itemId = c.itemId := by
  unfold firstOrCreateEnclosure; split
  · exact ⟨[], by simp⟩
  · exact ⟨[{ c with id := db.nextEncId }], rfl, by simp⟩

theorem addEnclosures_items (db : DB) (i : Nat) (es : List SrcEnclosure) :
    (addEnclosures db i es).1.items = db.items := by
  induction es generalizing db with
  | nil => rfl
  | cons e rest ih =>
    simp only [addEnclosures]
    split
    · rfl
    · rw [ih, firstOrCreateEnclosure_items]

theorem addEnclosures_enc (db : DB) (i : Nat) (es : List SrcEnclosure) :
    ∃ t, (addEnclosures db i es).1.enclosures = db.enclosures ++ t ∧
      ∀ r ∈ t, r.itemId = i := by
  induction es generalizing db with
  | nil => exact ⟨[], by simp [addEnclosures]⟩
  | cons e rest ih =>
    simp only [addEnclosures]
    split
    · exact ⟨[], by simp⟩
    · obtain ⟨t1, h1, h1m⟩ := firstOrCreateEnclosure_enc db
        { url := e.url, length := ‹_›, type := e.type, itemId := i }
      obtain ⟨t2, h2, h2m⟩ := ih (firstOrCreateEnclosure db _)
      refine ⟨t1 ++ t2, ?_, ?_⟩
      · rw [h2, h1, List.append_assoc]
      · intro r hr
        rcases List.mem_append.1 hr with h | h
        · exact h1m r h
        · exact h2m r h

theorem addEnclosures_ok (db : DB) (i : Nat) (es : List SrcEnclosure)
    (h : ∀ e ∈ es, (parseUint e.length).isSome = true) :
    (addEnclosures db i es).2 = none := by
  induction es generalizing db with
  | nil => rfl
  | cons e rest ih =>
    simp only [addEnclosures]
    split
    · rename_i heq
      have := h e (by simp)
      rw [heq] at this
      simp at this
    · exact ih _ fun e he => h e (by simp [he])

theorem addEnclosures_fail (i : Nat) (good : List SrcEnclosure) (bad : SrcEnclosure)
    (rest : List SrcEnclosure) (hgood : ∀ e ∈ good, (parseUint e.length).isSome = true)
    (hbad : parseUint bad.length = none) :
    ∀ db : DB, (addEnclosures db i (good ++ bad :: rest)).2 =
      some ("failed to parse enclosure length for URL " ++ bad.url) := by
  induction good with
  | nil => intro db; simp [addEnclosures, hbad]
  | cons e g ih =>
    intro db
    simp only [List.cons_append, addEnclosures]
    split
    · rename_i heq
      have := hgood e (by simp)
      rw [heq] at this
      simp at this
    · exact ih (fun e he => hgood e (by simp [he])) _

theorem firstOrCreateItem_items (db : DB) (c : ItemRec) :
    (firstOrCreateItem db c).1.items = db.items ∨
    (firstOrCreateItem db c).1.items = db.items ++ [{ c with id := db.nextItemId }] := by
  unfold firstOrCreateItem; split
  · exact Or.inl rfl
  · exact Or.inr rfl

theorem updateItems_items_append (b : List SrcItem) :
    ∀ (db : DB) (feed : FeedRec),
      ∃ t, (updateItems db b feed).1.items = db.items ++ t ∧
        ∀ r ∈ t, r.tgPublished = 0 := by
  induction b with
  | nil => intro db feed; exact ⟨[], by simp [updateItems]⟩
  | cons v rest ih =>
    intro db feed
    simp only [updateItems]
    rcases hfc : firstOrCreateItem db (mkCandidate feed v) with ⟨db1, ex⟩
    have hd1 : db1.items = db.items ∨
        db1.items = db.items ++ [{ mkCandidate feed v with id := db.nextItemId }] := by
      have := firstOrCreateItem_items db (mkCandidate feed v)
      rw [hfc] at this
      exact this
    rcases hae : addEnclosures db1 ex.id v.enclosures with ⟨db2, e?⟩
    have hd2 : db2.items = db1.items := by
      have := addEnclosures_items db1 ex.id v.enclosures
      rw [hae] at this
      exact this
    have base : ∃ t, db2.items = db.items ++ t ∧ ∀ r ∈ t, r.tgPublished = 0 := by
      rcases hd1 with h | h
      · exact ⟨[], by simp [hd2, h], by simp⟩
      · refine ⟨[{ mkCandidate feed v with id := db.nextItemId }], by simp [hd2, h], ?_⟩
        intro r hr
        simp at hr
        subst hr
        rfl
    cases e? with
    | some e => simpa using base
    | none =>
      obtain ⟨t2, h2, h2z⟩ := ih db2 feed
      obtain ⟨t1, h1, h1z⟩ := base
      refine ⟨t1 ++ t2, ?_, ?_⟩
      · simp only []
        rw [h2, h1, List.append_assoc]
      · intro r hr
        rcases List.mem_append.1 hr with h | h
        · exact h1z r h
        · exact h2z r h

theorem updateItems_enc_append (b : List SrcItem) :
    ∀ (db : DB) (feed : FeedRec),
      ∃ t, (updateItems db b feed).1.enclosures = db.enclosures ++ t := by
  induction b with
  | nil => intro db feed; exact ⟨[], by simp [updateItems]⟩
  | cons v rest ih =>
    intro db feed
    simp only [updateItems]
    rcases hfc : firstOrCreateItem db (mkCandidate feed v) with ⟨db1, ex⟩
    have hd1 : db1.enclosures = db.enclosures := by
      revert hfc
      unfold firstOrCreateItem
      split <;> (intro hfc; cases hfc; rfl)
    rcases hae : addEnclosures db1 ex.id v.enclosures with ⟨db2, e?⟩
    have hd2 : ∃ t, db2.enclosures = db1.enclosures ++ t := by
      obtain ⟨t, ht, _⟩ := addEnclosures_enc db1 ex.id v.enclosures
      rw [hae] at ht
      exact ⟨t, ht⟩
    obtain ⟨t1, ht1⟩ := hd2
    cases e? with
    | some e => exact ⟨t1, by simpa [hd1] using ht1⟩
    | none =>
      obtain ⟨t2, ht2⟩ := ih db2 feed
      exact ⟨t1 ++ t2, by simp only []; rw [ht2, ht1, hd1, List.append_assoc]⟩

theorem countTitled_eq_of_items {d1 d2 : DB} (h : d1.items = d2.items) (x : String) :
    countTitled d1 x = countTitled d2 x := by
  unfold countTitled; rw [h]

theorem countTitled_zero_iff (db : DB) (x : String) :
    countTitled db x = 0 ↔ ∀ r ∈ db.items, r.title ≠ x := by
  unfold countTitled
  rw [List.length_eq_zero, List.filter_eq_nil_iff]
  simp

theorem updateItems_cons_eq (db : DB) (v : SrcItem) (rest : List SrcItem) (feed : FeedRec) :
    updateItems db (v :: rest) feed =
      match addEnclosures (firstOrCreateItem db (mkCandidate feed v)).1
          (firstOrCreateItem db (mkCandidate feed v)).2.id v.enclosures with
      | (db2, some e) => (db2, some e)
      | (db2, none) => updateItems db2 rest feed := rfl

theorem firstOrCreateItem_none (db : DB) (c : ItemRec)
    (h : db.items.find? (fun r => c.title == "" || r.title == c.title) = none) :
    firstOrCreateItem db c =
      ({ db with
          items := db.items ++ [{ c with id := db.nextItemId }],
          nextItemId := db.nextItemId + 1 },
        { c with id := db.nextItemId }) := by
  unfold firstOrCreateItem
  rw [h]

theorem firstOrCreateItem_found (db : DB) (c : ItemRec) (r : ItemRec)
    (h : db.items.find? (fun r => c.title == "" || r.title == c.title) = some r) :
    firstOrCreateItem db c = (db, r) := by
  unfold firstOrCreateItem
  rw [h]

/-- Step characterisation of updateItems on a cons whose head's enclosures
all parse and whose title is not yet in the store: the step creates the
candidate with a fresh id and recurses. -/
theorem updateItems_cons_none (db : DB) (v : SrcItem) (rest : List SrcItem) (feed : FeedRec)
    (hfind : db.items.find?
      (fun r => (mkCandidate feed v).title == "" || r.title == (mkCandidate feed v).title)
        = none)
    (hp : ∀ e ∈ v.enclosures, (parseUint e.length).isSome = true) :
    ∃ db2 : DB,
      updateItems db (v :: rest) feed = updateItems db2 rest feed ∧
      db2.items = db.items ++ [{ mkCandidate feed v with id := db.nextItemId }] := by
  rcases hae : addEnclosures (firstOrCreateItem db (mkCandidate feed v)).1
      (firstOrCreateItem db (mkCandidate feed v)).2.id v.enclosures with ⟨db2, e?⟩
  have he : e? = none := by
    have := addEnclosures_ok (firstOrCreateItem db (mkCandidate feed v)).1
      (firstOrCreateItem db (mkCandidate feed v)).2.id v.enclosures hp
    rw [hae] at this
    exact this
  subst he
  refine ⟨db2, ?_, ?_⟩
  · rw [updateItems_cons_eq, hae]
  · have hi : db2.items = (firstOrCreateItem db (mkCandidate feed v)).1.items := by
      have := addEnclosures_items (firstOrCreateItem db (mkCandidate feed v)).1
        (firstOrCreateItem db (mkCandidate feed v)).2.id v.enclosures
      rw [hae] at this
      exact this
    rw [hi, firstOrCreateItem_none db (mkCandidate feed v) hfind]

/-- Step characterisation of updateItems on a cons whose head's enclosures
all parse and whose title is already present: the item table is untouched. -/
theorem updateItems_cons_found (db : DB) (v : SrcItem) (rest : List SrcItem) (feed : FeedRec)
    (r : ItemRec)
    (hfind : db.items.find?
      (fun r => (mkCandidate feed v).title == "" || r.title == (mkCandidate feed v).title)
        = some r)
    (hp : ∀ e ∈ v.enclosures, (parseUint e.length).isSome = true) :
    ∃ db2 : DB,
      updateItems db (v :: rest) feed = updateItems db2 rest feed ∧
      db2.items = db.items := by
  rcases hae : addEnclosures (firstOrCreateItem db (mkCandidate feed v)).1
      (firstOrCreateItem db (mkCandidate feed v)).2.id v.enclosures with ⟨db2, e?⟩
  have he : e? = none := by
    have := addEnclosures_ok (firstOrCreateItem db (mkCandidate feed v)).1
      (firstOrCreateItem db (mkCandidate feed v)).2.id v.enclosures hp
    rw [hae] at this
    exact this
  subst he
  refine ⟨db2, ?_, ?_⟩
  · rw [updateItems_cons_eq, hae]
  · have hi : db2.items = (firstOrCreateItem db (mkCandidate feed v)).1.items := by
      have := addEnclosures_items (firstOrCreateItem db (mkCandidate feed v)).1
        (firstOrCreateItem db (mkCandidate feed v)).2.id v.enclosures
      rw [hae] at this
      exact this
    rw [hi, firstOrCreateItem_found db (mkCandidate feed v) r hfind]

/-- Running updateItems on a batch whose enclosures all parse changes the
number of items bearing a non-empty title x to one exactly when the batch
mentions x and the store had none, and otherwise leaves the count alone. -/
theorem countTitled_updateItems (x : String) (hx : x ≠ "") :
    ∀ (b : List SrcItem) (db : DB) (feed : FeedRec),
      (∀ v ∈ b, ∀ e ∈ v.enclosures, (parseUint e.length).isSome = true) →
      countTitled (updateItems db b feed).1 x =
        if countTitled db x = 0 then (if x ∈ b.map SrcItem.title then 1 else 0)
        else countTitled db x := by
  intro b
  induction b with
  | nil =>
    intro db feed _
    simp only [updateItems, List.map_nil, List.not_mem_nil, if_false]
    split <;> simp_all
  | cons v rest ih =>
    intro db feed hp
    have hmemiff : v.title ≠ x →
        ((x ∈ (v :: rest).map SrcItem.title) ↔ (x ∈ rest.map SrcItem.title)) := by
      intro hvx
      simp only [List.map_cons, List.mem_cons]
      constructor
      · rintro (h | h)
        · exact absurd h.symm hvx
        · exact h
      · exact Or.inr
    cases hfind : db.items.find?
        (fun r => (mkCandidate feed v).title == "" || r.title == (mkCandidate feed v).title) with
    | some r =>
      obtain ⟨db2, hstep, hd2⟩ :=
        updateItems_cons_found db v rest feed r hfind (hp v (by simp))
      rw [hstep, ih db2 feed (fun u hu => hp u (by simp [hu])),
        countTitled_eq_of_items hd2]
      by_cases hvx : v.title = x
      · have hpr := List.find?_some hfind
        have hmem := List.mem_of_find?_eq_some hfind
        have hrx : r.title = x := by
          have hpr2 : (v.title == "" || r.title == v.title) = true := by
            simpa [mkCandidate] using hpr
          rcases Bool.or_eq_true_iff.1 hpr2 with h | h
          · have : v.title = "" := by simpa using h
            exact absurd (hvx.symm.trans this) hx
          · rw [← hvx]
            simpa using h
        have hpos : countTitled db x ≠ 0 := by
          intro h0
          exact ((countTitled_zero_iff db x).1 h0 r hmem) hrx
        simp [hpos]
      · simp only [hmemiff hvx]
    | none =>
      obtain ⟨db2, hstep, hd2⟩ := updateItems_cons_none db v rest feed hfind (hp v (by simp))
      rw [hstep, ih db2 feed (fun u hu => hp u (by simp [hu]))]
      have hc2 : countTitled db2 x = countTitled db x + (if v.title = x then 1 else 0) := by
        unfold countTitled
        rw [hd2, List.filter_append, List.length_append]
        congr 1
        by_cases hvx : v.title = x <;> simp [mkCandidate, hvx]
      rw [hc2]
      by_cases hvx : v.title = x
      · have hzero : countTitled db x = 0 := by
          rw [countTitled_zero_iff]
          intro r hr hrx
          have := List.find?_eq_none.1 hfind r hr
          simp only [mkCandidate, Bool.or_eq_true, not_or] at this
          exact this.2 (by simp [hrx, hvx])
        simp [hvx, hzero]
      · simp only [hmemiff hvx, hvx, if_false, Nat.add_zero]

theorem updateItems_ok (b : List SrcItem) :
    ∀ (db : DB) (feed : FeedRec),
      (∀ v ∈ b, ∀ e ∈ v.enclosures, (parseUint e.length).isSome = true) →
      (updateItems db b feed).2 = none := by
  induction b with
  | nil => intro db feed _; rfl
  | cons v rest ih =>
    intro db feed hp
    rw [updateItems_cons_eq]
    rcases hae : addEnclosures (firstOrCreateItem db (mkCandidate feed v)).1
        (firstOrCreateItem db (mkCandidate feed v)).2.id v.enclosures with ⟨db2, e?⟩
    have he : e? = none := by
      have := addEnclosures_ok (firstOrCreateItem db (mkCandidate feed v)).1
        (firstOrCreateItem db (mkCandidate feed v)).2.id v.enclosures (hp v (by simp))
      rw [hae] at this
      exact this
    subst he
    exact ih db2 feed (fun u hu => hp u (by simp [hu]))

/-- updateItems over a concatenated batch runs the first part and continues
with the second only when the first finishes without error. -/
theorem updateItems_append_eq (l1 l2 : List SrcItem) :
    ∀ (db : DB) (feed : FeedRec),
      updateItems db (l1 ++ l2) feed =
        match updateItems db l1 feed with
        | (d, none) => updateItems d l2 feed
        | (d, some e) => (d, some e) := by
  induction l1 with
  | nil => intro db feed; simp [updateItems]
  | cons v rest ih =>
    intro db feed
    rw [List.cons_append, updateItems_cons_eq, updateItems_cons_eq]
    rcases addEnclosures (firstOrCreateItem db (mkCandidate feed v)).1
        (firstOrCreateItem db (mkCandidate feed v)).2.id v.enclosures with ⟨db2, e?⟩
    cases e? with
    | some e => rfl
    | none => exact ih db2 feed

/-- Ingesting a batch of items with fresh, pairwise distinct, non-empty
titles and no enclosures appends exactly those titles in source order and
succeeds. -/
theorem updateItems_fresh (b : List SrcItem) :
    ∀ (db : DB) (feed : FeedRec),
      (∀ v ∈ b, v.enclosures = []) →
      (∀ v ∈ b, v.title ≠ "") →
      (b.map SrcItem.title).Nodup →
      (∀ v ∈ b, ∀ r ∈ db.items, r.title ≠ v.title) →
      (updateItems db b feed).1.items.map ItemRec.title
          = db.items.map ItemRec.title ++ b.map SrcItem.title
        ∧ (updateItems db b feed).2 = none := by
  induction b with
  | nil =>
    intro db feed _ _ _ _
    exact ⟨by simp [updateItems], rfl⟩
  | cons v rest ih =>
    intro db feed henc hne hnd hfresh
    have hfind : db.items.find?
        (fun r => (mkCandidate feed v).title == "" || r.title == (mkCandidate feed v).title)
          = none := by
      rw [List.find?_eq_none]
      intro r hr
      simp only [mkCandidate, Bool.or_eq_true, beq_iff_eq, not_or]
      exact ⟨hne v (by simp), fun h => hfresh v (by simp) r hr h⟩
    obtain ⟨db2, hstep, hd2⟩ := updateItems_cons_none db v rest feed hfind
      (by simp [henc v (by simp)])
    rw [List.map_cons] at hnd
    have hnd2 := List.nodup_cons.1 hnd
    have hfresh2 : ∀ u ∈ rest, ∀ r ∈ db2.items, r.title ≠ u.title := by
      intro u hu r hr
      rw [hd2] at hr
      rcases List.mem_append.1 hr with h | h
      · exact hfresh u (by simp [hu]) r h
      · have hrv : r.title = v.title := by
          simp only [List.mem_singleton] at h
          subst h
          simp [mkCandidate]
        rw [hrv]
        intro hvu
        exact hnd2.1 (hvu ▸ List.mem_map_of_mem SrcItem.title hu)
    obtain ⟨ht, he⟩ := ih db2 feed (fun u hu => henc u (by simp [hu]))
      (fun u hu => hne u (by simp [hu])) hnd2.2 hfresh2
    refine ⟨?_, by rw [hstep]; exact he⟩
    rw [hstep, ht, hd2]
    simp [mkCandidate]

/-- updateItem only ever writes the value 1, and only on the row whose
primary key matches. -/
theorem find?_map_id_pres (g : ItemRec → ItemRec) (hg : ∀ r, (g r).id = r.id)
    (j : Nat) (l : List ItemRec) :
    (l.map g).find? (fun r => r.id == j) = (l.find? (fun r => r.id == j)).map g := by
  induction l with
  | nil => rfl
  | cons a t ih =>
    cases h : (a.id == j : Bool) with
    | true => simp [List.find?_cons, hg a, h]
    | false => simp [List.find?_cons, hg a, h, ih]

theorem stateOf_updateItem (db : DB) (it : ItemRec) (j : Nat) :
    stateOf (updateItem db it) j =
      if j = it.id then (stateOf db j).map (fun _ => 1) else stateOf db j := by
  unfold stateOf updateItem
  simp only []
  rw [find?_map_id_pres (fun r => if r.id == it.id then { r with tgPublished := 1 } else r)
    (by intro r; by_cases h : r.id == it.id <;> simp [h]) j db.items]
  cases hf : db.items.find? (fun r => r.id == j) with
  | none => simp
  | some r =>
    have hrj : r.id = j := by simpa using List.find?_some hf
    by_cases hj : j = it.id
    · simp [hrj, hj]
    · simp [hrj, hj]

/-- A published row stays published under updateItem. -/
theorem stateOf_updateItem_one (db : DB) (it : ItemRec) (j : Nat)
    (h : stateOf db j = some 1) : stateOf (updateItem db it) j = some 1 := by
  rw [stateOf_updateItem]
  split <;> simp [h]

theorem firstOrCreateItem_enclosures (db : DB) (c : ItemRec) :
    (firstOrCreateItem db c).1.enclosures = db.enclosures := by
  unfold firstOrCreateItem
  split <;> rfl

/-- updateItems over a single item whose enclosure list fails to parse at
`bad` stops right there: the pair returned is the state after the item row
and the good enclosures were written, with the parse error. -/
theorem updateItems_single_fail (d : DB) (v : SrcItem) (feed : FeedRec)
    (good : List SrcEnclosure) (bad : SrcEnclosure) (rest : List SrcEnclosure)
    (hv : v.enclosures = good ++ bad :: rest)
    (hgood : ∀ e ∈ good, (parseUint e.length).isSome = true)
    (hbad : parseUint bad.length = none) :
    updateItems d [v] feed =
      ((addEnclosures (firstOrCreateItem d (mkCandidate feed v)).1
          (firstOrCreateItem d (mkCandidate feed v)).2.id v.enclosures).1,
        some ("failed to parse enclosure length for URL " ++ bad.url)) := by
  rw [updateItems_cons_eq]
  rcases hae : addEnclosures (firstOrCreateItem d (mkCandidate feed v)).1
      (firstOrCreateItem d (mkCandidate feed v)).2.id v.enclosures with ⟨d2, e?⟩
  have h2 : e? = some ("failed to parse enclosure length for URL " ++ bad.url) := by
    have := addEnclosures_fail (firstOrCreateItem d (mkCandidate feed v)).2.id good bad rest
      hgood hbad (firstOrCreateItem d (mkCandidate feed v)).1
    rw [← hv, hae] at this
    exact this
  subst h2
  rfl

/-!  ### The claims  -/

/-- C1: an Item's publication state only moves from 0 to 1 and is never
reversed: ingestion appends rows (state 0) and never rewrites an existing
row, updateItem only writes the value 1 on the addressed row, a published
row stays published; ingesting two batches that both carry the title x into
a store without it yields exactly one row titled x, and the second batch
leaves every row the first batch produced byte-for-byte intact. -/
theorem c1_state_monotone_dedup
    (db : DB) (b1 b2 : List SrcItem) (feed1 feed2 : FeedRec) (x : String)
    (hx : x ≠ "")
    (h0 : countTitled db x = 0)
    (h1 : x ∈ b1.map SrcItem.title) (h2 : x ∈ b2.map SrcItem.title)
    (hp1 : ∀ v ∈ b1, ∀ e ∈ v.enclosures, (parseUint e.length).isSome = true)
    (hp2 : ∀ v ∈ b2, ∀ e ∈ v.enclosures, (parseUint e.length).isSome = true) :
    (∀ (d : DB) (b : List SrcItem) (f : FeedRec),
        ∃ tail, (updateItems d b f).1.items = d.items ++ tail ∧
          ∀ r ∈ tail, r.tgPublished = 0)
    ∧ (∀ (d : DB) (it : ItemRec) (j : Nat),
        stateOf (updateItem d it) j =
          if j = it.id then (stateOf d j).map (fun _ => 1) else stateOf d j)
    ∧ (∀ (d : DB) (it : ItemRec) (j : Nat),
        stateOf d j = some 1 → stateOf (updateItem d it) j = some 1)
    ∧ countTitled (updateItems (updateItems db b1 feed1).1 b2 feed2).1 x = 1
    ∧ (∀ r ∈ (updateItems db b1 feed1).1.items,
        r ∈ (updateItems (updateItems db b1 feed1).1 b2 feed2).1.items) := by
  refine ⟨fun d b f => updateItems_items_append b d f,
    fun d it j => stateOf_updateItem d it j,
    fun d it j h => stateOf_updateItem_one d it j h, ?_, ?_⟩
  · have hc1 := countTitled_updateItems x hx b1 db feed1 hp1
    rw [h0] at hc1
    simp only [if_pos rfl, h1, if_true] at hc1
    have hc2 := countTitled_updateItems x hx b2 (updateItems db b1 feed1).1 feed2 hp2
    rw [hc1] at hc2
    simpa using hc2
  · intro r hr
    obtain ⟨t, ht, _⟩ := updateItems_items_append b2 (updateItems db b1 feed1).1 feed2
    rw [ht]
    exact List.mem_append_left t hr

def c1b1 : List SrcItem := [{ title := "X", description := "first" }]

def c1b2 : List SrcItem := [{ title := "X", description := "second" }]

/-- Witness for C1: two one-element batches, both titled X, into an empty
store through two different feeds leave exactly one row titled X. -/
theorem c1_state_monotone_dedup_witness :
    countTitled (updateItems (updateItems { } c1b1 { id := 1 }).1 c1b2 { id := 2 }).1 "X" = 1 :=
  (c1_state_monotone_dedup { } c1b1 c1b2 { id := 1 } { id := 2 } "X"
    (by decide) (by decide) (by decide) (by decide) (by decide) (by decide)).2.2.2.1

/-- C10: title dedup in updateItems is global, not scoped to the target
feed: when any persisted row (of whatever feed) already bears the candidate
title, no new Item row is created, the item table is completely unchanged,
and every enclosure row the call creates is attached to that pre-existing
row's id. -/
theorem c10_global_title_dedup (db : DB) (feedB : FeedRec) (v : SrcItem) (old : ItemRec)
    (hfind : db.items.find?
      (fun r => (mkCandidate feedB v).title == "" || r.title == (mkCandidate feedB v).title)
        = some old)
    (hp : ∀ e ∈ v.enclosures, (parseUint e.length).isSome = true) :
    (updateItems db [v] feedB).1.items = db.items
    ∧ (∃ t, (updateItems db [v] feedB).1.enclosures = db.enclosures ++ t
        ∧ ∀ u ∈ t, u.itemId = old.id)
    ∧ (updateItems db [v] feedB).2 = none := by
  have hfc := firstOrCreateItem_found db (mkCandidate feedB v) old hfind
  rcases hae : addEnclosures (firstOrCreateItem db (mkCandidate feedB v)).1
      (firstOrCreateItem db (mkCandidate feedB v)).2.id v.enclosures with ⟨db2, e?⟩
  have he : e? = none := by
    have := addEnclosures_ok (firstOrCreateItem db (mkCandidate feedB v)).1
      (firstOrCreateItem db (mkCandidate feedB v)).2.id v.enclosures hp
    rw [hae] at this
    exact this
  subst he
  have hrun : updateItems db [v] feedB = (db2, none) := by
    rw [updateItems_cons_eq, hae]
    rfl
  have hitems : db2.items = db.items := by
    have := addEnclosures_items (firstOrCreateItem db (mkCandidate feedB v)).1
      (firstOrCreateItem db (mkCandidate feedB v)).2.id v.enclosures
    rw [hae, hfc] at this
    exact this
  refine ⟨by rw [hrun]; exact hitems, ?_, by rw [hrun]⟩
  obtain ⟨t, ht, hm⟩ := addEnclosures_enc (firstOrCreateItem db (mkCandidate feedB v)).1
    (firstOrCreateItem db (mkCandidate feedB v)).2.id v.enclosures
  rw [hae, hfc] at ht
  refine ⟨t, by rw [hrun]; exact ht, ?_⟩
  intro u hu
  have := hm u hu
  rw [hfc] at this
  exact this

def c10db : DB :=
  { items := [{ id := 1, title := "X", feedId := 1, tgPublished := 1 }], nextItemId := 2 }

def c10v : SrcItem := { title := "X", enclosures := [{ url := "u2", length := "5" }] }

/-- Witness for C10: ingesting an item titled X for feed 2 while feed 1
already owns the row titled X creates no row and hangs the new enclosure on
feed 1's row. -/
theorem c10_global_title_dedup_witness :
    (updateItems c10db [c10v] { id := 2 }).1.items = c10db.items
    ∧ (updateItems c10db [c10v] { id := 2 }).2 = none := by
  have h := c10_global_title_dedup c10db { id := 2 } c10v
    { id := 1, title := "X", feedId := 1, tgPublished := 1 } (by decide) (by decide)
  exact ⟨h.1, h.2.2⟩

/-- C4: enclosure lengths are parsed as base-10 unsigned integers and the
first failure aborts the call: the items after the failing one are never
processed (the run over pre ++ v :: post equals the run over pre ++ v), an
error is returned, nothing persisted before the failure is lost (both
tables only grow), and when the failing enclosure is the item's first the
owning Item has been persisted by its find-or-create while zero enclosure
rows were written for it. -/
theorem c4_enclosure_failfast (db : DB) (feed : FeedRec) (pre : List SrcItem)
    (v : SrcItem) (post : List SrcItem) (good : List SrcEnclosure) (bad : SrcEnclosure)
    (rest : List SrcEnclosure)
    (hpre : ∀ u ∈ pre, ∀ e ∈ u.enclosures, (parseUint e.length).isSome = true)
    (hv : v.enclosures = good ++ bad :: rest)
    (hgood : ∀ e ∈ good, (parseUint e.length).isSome = true)
    (hbad : parseUint bad.length = none) :
    updateItems db (pre ++ v :: post) feed = updateItems db (pre ++ [v]) feed
    ∧ (updateItems db (pre ++ [v]) feed).2 =
        some ("failed to parse enclosure length for URL " ++ bad.url)
    ∧ (∃ t, (updateItems db (pre ++ [v]) feed).1.items = db.items ++ t)
    ∧ (∃ t, (updateItems db (pre ++ [v]) feed).1.enclosures = db.enclosures ++ t)
    ∧ (good = [] →
        (updateItems db (pre ++ [v]) feed).1.enclosures
            = (updateItems db pre feed).1.enclosures
        ∧ (updateItems db (pre ++ [v]) feed).1.items
            = (firstOrCreateItem (updateItems db pre feed).1 (mkCandidate feed v)).1.items) := by
  have hP : updateItems db pre feed = ((updateItems db pre feed).1, none) := by
    rcases hpp : updateItems db pre feed with ⟨d, e⟩
    have h2 := updateItems_ok pre db feed hpre
    rw [hpp] at h2
    have he : e = none := h2
    subst he
    rfl
  have hfail := updateItems_single_fail (updateItems db pre feed).1 v feed good bad rest
    hv hgood hbad
  have hsplit : updateItems db (pre ++ [v]) feed =
      updateItems (updateItems db pre feed).1 [v] feed := by
    rw [updateItems_append_eq pre [v] db feed, hP]
  have h1 : updateItems db (pre ++ v :: post) feed = updateItems db (pre ++ [v]) feed := by
    have hpp2 : pre ++ v :: post = (pre ++ [v]) ++ post := by simp
    rw [hpp2, updateItems_append_eq (pre ++ [v]) post db feed, hsplit, hfail]
  refine ⟨h1, by rw [hsplit, hfail], ?_, ?_, ?_⟩
  · obtain ⟨t, ht, _⟩ := updateItems_items_append (pre ++ [v]) db feed
    exact ⟨t, ht⟩
  · exact updateItems_enc_append (pre ++ [v]) db feed
  · intro hg
    subst hg
    have hv2 : v.enclosures = bad :: rest := by simpa using hv
    have hone : addEnclosures (firstOrCreateItem (updateItems db pre feed).1
        (mkCandidate feed v)).1
        (firstOrCreateItem (updateItems db pre feed).1 (mkCandidate feed v)).2.id
        v.enclosures
        = ((firstOrCreateItem (updateItems db pre feed).1 (mkCandidate feed v)).1,
           some ("failed to parse enclosure length for URL " ++ bad.url)) := by
      rw [hv2]
      simp [addEnclosures, hbad]
    constructor
    · rw [hsplit, hfail, hone]
      exact firstOrCreateItem_enclosures (updateItems db pre feed).1 (mkCandidate feed v)
    · rw [hsplit, hfail, hone]

def c4bad : SrcEnclosure := { url := "u", length := "not-a-number" }

def c4v : SrcItem := { title := "A", enclosures := [c4bad] }

/-- Witness for C4: a batch whose first item has a single non-numeric
enclosure followed by a second item stops after the first item with an
error; the Item row for A is persisted and no enclosure row exists. -/
theorem c4_enclosure_failfast_witness :
    updateItems { } ([] ++ c4v :: [{ title := "B" }]) { id := 1 }
        = updateItems { } ([] ++ [c4v]) { id := 1 }
    ∧ (updateItems { } ([] ++ [c4v]) { id := 1 }).2 =
        some ("failed to parse enclosure length for URL " ++ c4bad.url)
    ∧ (updateItems { } ([] ++ [c4v]) { id := 1 }).1.items.map ItemRec.title = ["A"]
    ∧ (updateItems { } ([] ++ [c4v]) { id := 1 }).1.enclosures = [] := by
  have h := c4_enclosure_failfast { } { id := 1 } [] c4v [{ title := "B" }] [] c4bad []
    (by decide) rfl (by decide) (by decide)
  exact ⟨h.1, h.2.1, by decide, by decide⟩

theorem sel_take (l : List SrcItem) (n : Nat) :
    (if l.length > n then l.take n else l) = l.take n := by
  split
  · rfl
  · rename_i h
    rw [List.take_of_length_le (by omega)]

/-- C5: checkFeeds hands updateItems at most the first 9 fetched items and
fullFeed at most the first 200, always a prefix of the source order and
never re-sorted: on a store holding just the feed, the persisted titles are
exactly the titles of that prefix in order, so the persisted count is
min 9 (or 200) against the document size. -/
theorem c5_batch_bounding (f : FeedRec) (doc : FeedDoc)
    (fetch : String → Except String FeedDoc)
    (hfetch : fetch f.feed = .ok doc)
    (henc : ∀ v ∈ doc.items, v.enclosures = [])
    (hne : ∀ v ∈ doc.items, v.title ≠ "")
    (hnodup : (doc.items.map SrcItem.title).Nodup) :
    ((checkFeeds { feeds := [f] } fetch).1.items.map ItemRec.title
        = (doc.items.take 9).map SrcItem.title)
    ∧ (checkFeeds { feeds := [f] } fetch).1.items.length = min 9 doc.items.length
    ∧ ((fullFeed { feeds := [f] } fetch f.title).1.items.map ItemRec.title
        = (doc.items.take 200).map SrcItem.title)
    ∧ (fullFeed { feeds := [f] } fetch f.title).1.items.length
        = min 200 doc.items.length := by
  have hsubN : ∀ n : Nat, ((doc.items.take n).map SrcItem.title).Nodup := by
    intro n
    rw [List.map_take]
    exact List.Nodup.sublist (List.take_sublist n _) hnodup
  have hfr : ∀ n : Nat,
      ((updateItems { feeds := [f] } (doc.items.take n) f).1.items.map ItemRec.title
          = (doc.items.take n).map SrcItem.title)
        ∧ (updateItems { feeds := [f] } (doc.items.take n) f).2 = none := by
    intro n
    have h := updateItems_fresh (doc.items.take n) { feeds := [f] } f
      (fun v hv => henc v (List.take_subset n _ hv))
      (fun v hv => hne v (List.take_subset n _ hv))
      (hsubN n)
      (fun v _ r hr => by simp at hr)
    simpa using h
  have hlen : ∀ n : Nat,
      (updateItems { feeds := [f] } (doc.items.take n) f).1.items.length
        = min n doc.items.length := by
    intro n
    have h := congrArg List.length (hfr n).1
    simpa using h
  have hcheck : checkFeeds { feeds := [f] } fetch
      = ((updateItems { feeds := [f] } (doc.items.take 9) f).1, false) := by
    rcases hu : updateItems { feeds := [f] } (doc.items.take 9) f with ⟨d2, e?⟩
    have he : e? = none := by
      have h2 := (hfr 9).2
      rw [hu] at h2
      exact h2
    subst he
    show checkFeedsLoop fetch [f] { feeds := [f] } false = (d2, false)
    simp only [checkFeedsLoop, hfetch]
    rw [sel_take doc.items 9, hu]
  have hfull : fullFeed { feeds := [f] } fetch f.title
      = updateItems { feeds := [f] } (doc.items.take 200) f := by
    have hfind : (({ feeds := [f] } : DB).feeds.find?
        (fun g => f.title == "" || g.title == f.title)) = some f := by
      show ([f].find? _) = some f
      simp [List.find?_cons]
    unfold fullFeed
    rw [hfind]
    simp only [hfetch]
    rw [sel_take doc.items 200]
  refine ⟨?_, ?_, ?_, ?_⟩
  · rw [hcheck]
    exact (hfr 9).1
  · rw [hcheck]
    exact hlen 9
  · rw [hfull]
    exact (hfr 200).1
  · rw [hfull]
    exact hlen 200

def repTitle (n : Nat) : String := String.mk (List.replicate (n + 1) 'a')

theorem repTitle_ne (n : Nat) : repTitle n ≠ "" := by
  intro h
  have h2 := congrArg (fun s => s.data.length) h
  simp [repTitle] at h2

theorem repTitle_inj : Function.Injective repTitle := by
  intro a b h
  have h2 := congrArg (fun s => s.data.length) h
  simpa [repTitle] using h2

/-- A document with n items with pairwise distinct non-empty titles and no
enclosures. -/
def mkDocN (n : Nat) : FeedDoc :=
  { items := (List.range n).map (fun k => { title := repTitle k }) }

theorem mkDocN_facts (n : Nat) :
    (∀ v ∈ (mkDocN n).items, v.enclosures = [])
    ∧ (∀ v ∈ (mkDocN n).items, v.title ≠ "")
    ∧ ((mkDocN n).items.map SrcItem.title).Nodup
    ∧ (mkDocN n).items.length = n := by
  refine ⟨?_, ?_, ?_, by simp [mkDocN]⟩
  · intro v hv
    obtain ⟨k, _, rfl⟩ := List.mem_map.1 hv
    rfl
  · intro v hv
    obtain ⟨k, _, rfl⟩ := List.mem_map.1 hv
    exact repTitle_ne k
  · have h : (mkDocN n).items.map SrcItem.title = (List.range n).map repTitle := by
      simp only [mkDocN, List.map_map]
      rfl
    rw [h]
    exact List.Nodup.map repTitle_inj (List.nodup_range n)

def c5feed : FeedRec := { id := 1, title := "t", feed := "u" }

def c5fetch12 : String → Except String FeedDoc := fun _ => .ok (mkDocN 12)

def c5fetch205 : String → Except String FeedDoc := fun _ => .ok (mkDocN 205)

/-- Witness for C5: a 12-item document leaves exactly 9 rows after
checkFeeds and a 205-item document exactly 200 after fullFeed. -/
theorem c5_batch_bounding_witness :
    (checkFeeds { feeds := [c5feed] } c5fetch12).1.items.length = 9
    ∧ (fullFeed { feeds := [c5feed] } c5fetch205 c5feed.title).1.items.length = 200 := by
  have h12 := c5_batch_bounding c5feed (mkDocN 12) c5fetch12 rfl
    (mkDocN_facts 12).1 (mkDocN_facts 12).2.1 (mkDocN_facts 12).2.2.1
  have h205 := c5_batch_bounding c5feed (mkDocN 205) c5fetch205 rfl
    (mkDocN_facts 205).1 (mkDocN_facts 205).2.1 (mkDocN_facts 205).2.2.1
  constructor
  · rw [h12.2.1, (mkDocN_facts 12).2.2.2]
    decide
  · rw [h205.2.2.2, (mkDocN_facts 205).2.2.2]
    decide

theorem ppLe_refl (a : Option Nat) : ppLe a a = true := by
  cases a <;> simp [ppLe]

theorem ppLe_total (a b : Option Nat) : ppLe a b = true ∨ ppLe b a = true := by
  cases a <;> cases b <;> simp [ppLe] <;> omega

theorem ppLe_trans {a b c : Option Nat} (h1 : ppLe a b = true) (h2 : ppLe b c = true) :
    ppLe a c = true := by
  cases a <;> cases b <;> cases c <;> simp [ppLe] at * <;> omega

instance : IsTotal ItemRec itemPPLe := ⟨fun a b => ppLe_total _ _⟩

instance : IsTrans ItemRec itemPPLe := ⟨fun _ _ _ h1 h2 => ppLe_trans h1 h2⟩

/-- C6: the batch selection returns exactly the rows of the feed with
tg_published = 0, in ascending publish-instant order; selectNext returns
such a row whose publish instant is no later than that of any unpublished
row of the feed, and a published row is never returned by either (the
membership characterisation forces tg_published = 0). -/
theorem c6_selection (db : DB) (feed : FeedRec) :
    List.Sorted itemPPLe (getUnpublishedItems db feed)
    ∧ (∀ it : ItemRec, it ∈ getUnpublishedItems db feed ↔
        (it ∈ db.items ∧ it.feedId = feed.id ∧ it.tgPublished = 0))
    ∧ (∀ it : ItemRec, getFirstUnpublishedItem db feed = some it →
        (it ∈ db.items ∧ it.feedId = feed.id ∧ it.tgPublished = 0
          ∧ ∀ o ∈ db.items, o.feedId = feed.id → o.tgPublished = 0 →
              ppLe it.publishedParsed o.publishedParsed = true)) := by
  have hperm := List.perm_insertionSort itemPPLe
    (db.items.filter (fun r => r.feedId == feed.id && r.tgPublished == 0))
  have hsorted := List.sorted_insertionSort itemPPLe
    (db.items.filter (fun r => r.feedId == feed.id && r.tgPublished == 0))
  have hmem : ∀ it : ItemRec, it ∈ getUnpublishedItems db feed ↔
      (it ∈ db.items ∧ it.feedId = feed.id ∧ it.tgPublished = 0) := by
    intro it
    unfold getUnpublishedItems
    rw [hperm.mem_iff, List.mem_filter]
    simp
  refine ⟨hsorted, hmem, ?_⟩
  intro it hfirst
  have hcons : ∃ t, getUnpublishedItems db feed = it :: t := by
    unfold getFirstUnpublishedItem at hfirst
    cases h : getUnpublishedItems db feed with
    | nil =>
      rw [h] at hfirst
      simp at hfirst
    | cons a t =>
      rw [h] at hfirst
      simp only [List.head?] at hfirst
      cases hfirst
      exact ⟨t, rfl⟩
  obtain ⟨t, ht⟩ := hcons
  have hin : it ∈ getUnpublishedItems db feed := by
    rw [ht]
    simp
  obtain ⟨h1, h2, h3⟩ := (hmem it).1 hin
  refine ⟨h1, h2, h3, ?_⟩
  intro o ho hof hot
  have ho2 : o ∈ getUnpublishedItems db feed := (hmem o).2 ⟨ho, hof, hot⟩
  rw [ht] at ho2
  rcases List.mem_cons.1 ho2 with h | h
  · subst h
    exact ppLe_refl _
  · have hs := hsorted
    rw [show List.insertionSort itemPPLe
        (db.items.filter (fun r => r.feedId == feed.id && r.tgPublished == 0))
        = getUnpublishedItems db feed from rfl, ht] at hs
    exact (List.sorted_cons.1 hs).1 o h

def c6it1 : ItemRec :=
  { id := 1, title := "a1", feedId := 7, tgPublished := 0, publishedParsed := some 5 }

def c6it2 : ItemRec :=
  { id := 2, title := "a2", feedId := 7, tgPublished := 0, publishedParsed := some 3 }

def c6it3 : ItemRec :=
  { id := 3, title := "a3", feedId := 7, tgPublished := 1, publishedParsed := some 1 }

def c6db : DB :=
  { items := [c6it1, c6it2, c6it3,
      { id := 4, title := "a4", feedId := 8, tgPublished := 0, publishedParsed := some 0 }],
    nextItemId := 5 }

def c6feed : FeedRec := { id := 7 }

/-- Witness for C6: over three unpublished rows of feed 7 with instants
5, 3 and a published one at 1, selectNext returns the row with instant 3,
the published row is not selected, and the head is no later than the rest. -/
theorem c6_selection_witness :
    c6it2 ∈ getUnpublishedItems c6db c6feed
    ∧ (c6it3 ∈ getUnpublishedItems c6db c6feed → False)
    ∧ ppLe c6it2.publishedParsed c6it1.publishedParsed = true := by
  have h := c6_selection c6db c6feed
  refine ⟨(h.2.1 c6it2).2 ⟨by decide, rfl, rfl⟩, ?_, ?_⟩
  · intro hmem
    have h3 := ((h.2.1 c6it3).1 hmem).2.2
    exact absurd h3 (by decide)
  · have hf : getFirstUnpublishedItem c6db c6feed = some c6it2 := by decide
    exact (h.2.2 c6it2 hf).2.2.2 c6it1 (by decide) rfl rfl

/-- C7: the caption is the Markdown-emphasised title, a blank line and the
subtitle segment; the segment is the item subtitle, truncated to 800 with a
trailing ellipsis when longer, forced empty whenever the item's feed id is
34 regardless of input, and the extra link is appended after a blank line
exactly when the feed enables it. -/
theorem c7_caption (feed : FeedRec) (item : ItemRec) :
    captionText feed item = "*" ++ item.title ++ "*" ++ "\n\n" ++ captionSubtitle feed item
    ∧ (feed.extraLinkEnabled = true →
        captionSubtitle feed item =
          captionSubtitle { feed with extraLinkEnabled := false } item
            ++ "\n\n" ++ feed.extraLink)
    ∧ (feed.extraLinkEnabled = false →
        captionSubtitle feed item
          = captionSubtitle { feed with extraLinkEnabled := false } item)
    ∧ (item.feedId = 34 → captionSubtitle { feed with extraLinkEnabled := false } item = "")
    ∧ (item.feedId ≠ 34 → item.itunesSubtitle.length > 800 →
        captionSubtitle { feed with extraLinkEnabled := false } item
          = item.itunesSubtitle.take 800 ++ "...")
    ∧ (item.feedId ≠ 34 → item.itunesSubtitle.length ≤ 800 →
        captionSubtitle { feed with extraLinkEnabled := false } item
          = item.itunesSubtitle) := by
  refine ⟨rfl, ?_, ?_, ?_, ?_, ?_⟩
  · intro he
    unfold captionSubtitle
    simp [he]
  · intro he
    unfold captionSubtitle
    simp [he]
  · intro h34
    unfold captionSubtitle
    simp [h34]
  · intro h34 hlen
    unfold captionSubtitle
    simp [h34, hlen]
  · intro h34 hlen
    unfold captionSubtitle
    simp [h34, show ¬(item.itunesSubtitle.length > 800) from by omega]

def c7feedE : FeedRec := { id := 2, extraLinkEnabled := true, extraLink := "L" }

def c7feedN : FeedRec := { id := 2 }

def c7item34 : ItemRec := { title := "T", feedId := 34, itunesSubtitle := "sub" }

def c7long : ItemRec :=
  { title := "T", feedId := 1, itunesSubtitle := String.mk (List.replicate 801 'b') }

def c7short : ItemRec := { title := "T", feedId := 1, itunesSubtitle := "short" }

set_option maxRecDepth 8192 in
/-- Witness for C7: the feed-34 sentinel empties the subtitle, an 801-char
subtitle is truncated to 800 plus the ellipsis, a short subtitle passes
through, and an enabled extra link lands after a blank line. -/
theorem c7_caption_witness :
    captionSubtitle c7feedN c7item34 = ""
    ∧ captionSubtitle c7feedN c7long
        = (String.mk (List.replicate 801 'b')).take 800 ++ "..."
    ∧ captionSubtitle c7feedN c7short = "short"
    ∧ captionSubtitle c7feedE c7short = "short" ++ "\n\n" ++ "L" := by
  have h34 := (c7_caption c7feedN c7item34).2.2.2.1 rfl
  have hlong := (c7_caption c7feedN c7long).2.2.2.2.1 (by decide) (by decide)
  have hshort := (c7_caption c7feedN c7short).2.2.2.2.2 (by decide) (by decide)
  have hE := (c7_caption c7feedE c7short).2.1 rfl
  have hEbase := (c7_caption c7feedE c7short).2.2.2.2.2 (by decide) (by decide)
  refine ⟨?_, ?_, ?_, ?_⟩
  · exact ((c7_caption c7feedN c7item34).2.2.1 rfl).trans h34
  · exact ((c7_caption c7feedN c7long).2.2.1 rfl).trans hlong
  · exact ((c7_caption c7feedN c7short).2.2.1 rfl).trans hshort
  · rw [hE, hEbase]
    rfl

/-- C2: classification of every send outcome by publishToTheChannel on its
real path (nil injected bot): a missing token yields the distinct
configuration error with no send attempted, success yields nil, an error
containing the oversize marker yields nil, an error containing the UTF-8
marker yields nil, and any other error yields the wrapped non-nil error. -/
theorem c2_send_classification (env : PubEnv) (feed : FeedRec) (item : ItemRec)
    (file : String) :
    (env.tokenSet = false →
      publishToTheChannel env feed item file = (some "EP_TG_BOT_TOKEN is not set", []))
    ∧ (env.tokenSet = true → env.newBotError = none →
        (env.send (mkSendReq feed item file) = none →
          publishToTheChannel env feed item file = (none, [Ev.sendAttempt item.id]))
        ∧ (∀ msg, env.send (mkSendReq feed item file) = some msg →
            (strContains msg "Request Entity Too Large" = true →
              publishToTheChannel env feed item file = (none, [Ev.sendAttempt item.id]))
            ∧ (strContains msg "text must be encoded in UTF-8" = true →
              publishToTheChannel env feed item file = (none, [Ev.sendAttempt item.id]))
            ∧ (strContains msg "Request Entity Too Large" = false →
              strContains msg "text must be encoded in UTF-8" = false →
              publishToTheChannel env feed item file =
                (some ("error sending message for item " ++ item.title ++ ": " ++ msg),
                 [Ev.sendAttempt item.id])))) := by
  constructor
  · intro ht
    unfold publishToTheChannel
    simp [ht]
  · intro ht hb
    constructor
    · intro hs
      unfold publishToTheChannel
      simp [ht, hb, hs]
    · intro msg hs
      refine ⟨?_, ?_, ?_⟩
      · intro hc
        unfold publishToTheChannel
        simp [ht, hb, hs, hc]
      · intro hc
        unfold publishToTheChannel
        simp [ht, hb, hs, hc]
      · intro h1 h2
        unfold publishToTheChannel
        simp [ht, hb, hs, h1, h2]

def c2feed : FeedRec := { id := 1, tgChannel := 9 }

def c2item : ItemRec := { id := 5, title := "T" }

def c2envNoTok : PubEnv :=
  { tokenSet := false, send := fun _ => none, downloadFile := fun _ => .ok "" }

def c2envOk : PubEnv :=
  { tokenSet := true, send := fun _ => none, downloadFile := fun _ => .ok "" }

def c2envBig : PubEnv :=
  { tokenSet := true, send := fun _ => some "telegram: Request Entity Too Large (413)",
    downloadFile := fun _ => .ok "" }

def c2envUtf : PubEnv :=
  { tokenSet := true, send := fun _ => some "Bad Request: text must be encoded in UTF-8",
    downloadFile := fun _ => .ok "" }

def c2envOther : PubEnv :=
  { tokenSet := true, send := fun _ => some "Forbidden: bot was blocked",
    downloadFile := fun _ => .ok "" }

/-- Witness for C2 at five concrete environments, one per branch of the
classification. -/
theorem c2_send_classification_witness :
    publishToTheChannel c2envNoTok c2feed c2item "f" = (some "EP_TG_BOT_TOKEN is not set", [])
    ∧ publishToTheChannel c2envOk c2feed c2item "f" = (none, [Ev.sendAttempt 5])
    ∧ publishToTheChannel c2envBig c2feed c2item "f" = (none, [Ev.sendAttempt 5])
    ∧ publishToTheChannel c2envUtf c2feed c2item "f" = (none, [Ev.sendAttempt 5])
    ∧ publishToTheChannel c2envOther c2feed c2item "f"
        = (some ("error sending message for item " ++ "T" ++ ": " ++ "Forbidden: bot was blocked"),
           [Ev.sendAttempt 5]) := by
  refine ⟨(c2_send_classification c2envNoTok c2feed c2item "f").1 rfl, ?_, ?_, ?_, ?_⟩
  · exact ((c2_send_classification c2envOk c2feed c2item "f").2 rfl rfl).1 rfl
  · exact ((((c2_send_classification c2envBig c2feed c2item "f").2 rfl rfl).2 _ rfl).1
      (by decide))
  · exact ((((c2_send_classification c2envUtf c2feed c2item "f").2 rfl rfl).2 _ rfl).2.1
      (by decide))
  · exact ((((c2_send_classification c2envOther c2feed c2item "f").2 rfl rfl).2 _ rfl).2.2
      (by decide) (by decide))

/-- C9: an item with no enclosure rows downloads to an empty path with no
error and no network traffic, and the publish step still marks exactly that
row published, with no send attempt in its trace; an unpublished row so
processed ends up published. -/
theorem c9_no_enclosure (env : PubEnv) (db : DB) (feed : FeedRec) (item : ItemRec)
    (h : db.enclosures.find? (fun e => item.id == 0 || e.itemId == item.id) = none) :
    downloadEpisode env db item = (.ok "", [])
    ∧ publishItemStep env db feed item
        = (updateItem db item, [Ev.markPublished item.id], false)
    ∧ (stateOf db item.id = some 0 →
        stateOf (publishItemStep env db feed item).1 item.id = some 1) := by
  have hd : downloadEpisode env db item = (.ok "", []) := by
    unfold downloadEpisode
    rw [h]
  have hstep : publishItemStep env db feed item
      = (updateItem db item, [Ev.markPublished item.id], false) := by
    unfold publishItemStep
    rw [hd]
    rfl
  refine ⟨hd, hstep, ?_⟩
  intro h0
  rw [hstep]
  show stateOf (updateItem db item) item.id = some 1
  rw [stateOf_updateItem]
  simp [h0]

def c9item : ItemRec := { id := 1, title := "N", feedId := 3, tgPublished := 0 }

def c9db : DB := { items := [c9item], nextItemId := 2 }

def c9env : PubEnv :=
  { tokenSet := true, send := fun _ => none, downloadFile := fun _ => .ok "p" }

/-- Witness for C9: a store whose only item has no enclosure row. -/
theorem c9_no_enclosure_witness :
    downloadEpisode c9env c9db c9item = (.ok "", [])
    ∧ stateOf (publishItemStep c9env c9db { id := 3 } c9item).1 1 = some 1 := by
  have h := c9_no_enclosure c9env c9db { id := 3 } c9item rfl
  exact ⟨h.1, h.2.2 (by decide)⟩

theorem firstOrCreateImage_feeds (d : DB) (fid : Nat) (c : ImageRec) :
    (firstOrCreateImage d fid c).feeds = d.feeds := by
  unfold firstOrCreateImage
  split <;> rfl

/-- The image reconciliation branch of addFeed never touches the feed table. -/
theorem imageBranch_feeds (d : DB) (fid : Nat) (img? : Option SrcImage) :
    (match img? with
      | some img => firstOrCreateImage d fid { url := img.url, title := img.title, feedId := fid }
      | none => d).feeds = d.feeds := by
  cases img? with
  | none => rfl
  | some img => exact firstOrCreateImage_feeds d fid _

theorem firstOrCreateImage_idem (d : DB) (fid : Nat) (c : ImageRec) (hc : c.feedId = fid) :
    firstOrCreateImage (firstOrCreateImage d fid c) fid c = firstOrCreateImage d fid c := by
  cases hf : d.images.find? (fun r => imageCondMatch fid c r) with
  | some i =>
    have h1 : firstOrCreateImage d fid c = d := by
      unfold firstOrCreateImage
      rw [hf]
    rw [h1, h1]
  | none =>
    have h1 : firstOrCreateImage d fid c =
        { d with
          images := d.images ++ [{ c with id := d.nextImageId }],
          nextImageId := d.nextImageId + 1 } := by
      unfold firstOrCreateImage
      rw [hf]
    have h2 : ({ d with
        images := d.images ++ [{ c with id := d.nextImageId }],
        nextImageId := d.nextImageId + 1 } : DB).images.find?
          (fun r => imageCondMatch fid c r) = some { c with id := d.nextImageId } := by
      show (d.images ++ [{ c with id := d.nextImageId }]).find? _ = _
      rw [List.find?_append, hf]
      simp [List.find?_cons, imageCondMatch, hc]
    rw [h1]
    unfold firstOrCreateImage
    rw [h2]

/-- addFeed when a feed with the exact source URL exists: returned unchanged
at once, before any image reconciliation. -/
theorem addFeed_url_found (db : DB) (fetch : String → Except String FeedDoc)
    (url : String) (doc : FeedDoc) (f : FeedRec)
    (hfetch : fetch url = .ok doc)
    (hf : db.feeds.find? (fun g => url == "" || g.feed == url) = some f) :
    addFeed db fetch url = (db, .ok f) := by
  unfold addFeed
  simp only [hfetch, hf]

/-- addFeed when the URL misses but the non-empty fetched title matches an
existing feed: that feed is returned, the feed table untouched, only the
image branch runs against its id. -/
theorem addFeed_title_found (db : DB) (fetch : String → Except String FeedDoc)
    (url : String) (doc : FeedDoc) (g : FeedRec)
    (hfetch : fetch url = .ok doc)
    (hnone : db.feeds.find? (fun h => url == "" || h.feed == url) = none)
    (hte : doc.title ≠ "")
    (hg : db.feeds.find? (fun h => h.title == doc.title) = some g) :
    addFeed db fetch url =
      ((match doc.image with
        | some img => firstOrCreateImage db g.id
            { url := img.url, title := img.title, feedId := g.id }
        | none => db), .ok g) := by
  unfold addFeed
  simp only [hfetch, hnone]
  have ht : (doc.title == "") = false := by simpa using hte
  simp only [ht, Bool.false_eq_true, if_false, hg]

/-- The feed record addFeed creates when both lookups miss. -/
def createdFeed (db : DB) (doc : FeedDoc) (url : String) : FeedRec :=
  { id := db.nextFeedId, title := doc.title, description := doc.description,
    link := doc.link, feed := url }

/-- addFeed when the URL misses and the title is empty or misses: a new feed
record is appended and the image branch runs against its id. -/
theorem addFeed_create (db : DB) (fetch : String → Except String FeedDoc)
    (url : String) (doc : FeedDoc)
    (hfetch : fetch url = .ok doc)
    (hnone : db.feeds.find? (fun h => url == "" || h.feed == url) = none)
    (hcreate : doc.title = "" ∨ db.feeds.find? (fun h => h.title == doc.title) = none) :
    addFeed db fetch url =
      ((match doc.image with
        | some img => firstOrCreateImage
            { db with
                feeds := db.feeds ++ [createdFeed db doc url],
                nextFeedId := db.nextFeedId + 1 }
            db.nextFeedId
            { url := img.url, title := img.title, feedId := db.nextFeedId }
        | none =>
          { db with
              feeds := db.feeds ++ [createdFeed db doc url],
              nextFeedId := db.nextFeedId + 1 }), .ok (createdFeed db doc url)) := by
  by_cases htitle : doc.title = ""
  · have ht : (doc.title == "") = true := by simpa using htitle
    unfold addFeed
    simp only [hfetch, hnone, ht, if_true]
    rfl
  · have ht : (doc.title == "") = false := by simpa using htitle
    have hfnd : db.feeds.find? (fun h => h.title == doc.title) = none := by
      rcases hcreate with h | h
      · exact absurd h htitle
      · exact h
    unfold addFeed
    simp only [hfetch, hnone, ht, Bool.false_eq_true, if_false, hfnd]
    rfl

/-- Idempotence of addFeed in the create branch: the second registration of
the same URL resolves by URL to the row just created and changes nothing. -/
theorem addFeed_idem_create (db : DB) (fetch : String → Except String FeedDoc)
    (url : String) (doc : FeedDoc)
    (hfetch : fetch url = .ok doc)
    (hnone : db.feeds.find? (fun h => url == "" || h.feed == url) = none)
    (hcreate : doc.title = "" ∨ db.feeds.find? (fun h => h.title == doc.title) = none) :
    addFeed (addFeed db fetch url).1 fetch url = addFeed db fetch url := by
  have h1 := addFeed_create db fetch url doc hfetch hnone hcreate
  have hfeeds : (addFeed db fetch url).1.feeds = db.feeds ++ [createdFeed db doc url] := by
    rw [h1]
    exact imageBranch_feeds _ db.nextFeedId doc.image
  have hfind2 : (addFeed db fetch url).1.feeds.find? (fun g => url == "" || g.feed == url)
      = some (createdFeed db doc url) := by
    rw [hfeeds, List.find?_append, hnone]
    simp [List.find?_cons, createdFeed]
  have h2 := addFeed_url_found (addFeed db fetch url).1 fetch url doc
    (createdFeed db doc url) hfetch hfind2
  rw [h2, h1]

/-- C3: resolution order of addFeed: an exact source-URL match returns that
feed with the store untouched; otherwise a non-empty fetched title matching
an existing feed returns that feed with the feed table (hence its stored
URL) untouched; otherwise a new feed is created from the fetched
title/description/link plus the supplied URL; and a second registration of
the same URL returns the same feed and changes nothing. -/
theorem c3_feed_resolution (db : DB) (fetch : String → Except String FeedDoc)
    (url : String) (doc : FeedDoc) (hfetch : fetch url = .ok doc) :
    (∀ f, db.feeds.find? (fun g => url == "" || g.feed == url) = some f →
      addFeed db fetch url = (db, .ok f))
    ∧ (∀ g, db.feeds.find? (fun g => url == "" || g.feed == url) = none →
        doc.title ≠ "" →
        db.feeds.find? (fun h => h.title == doc.title) = some g →
        (addFeed db fetch url).2 = .ok g ∧ (addFeed db fetch url).1.feeds = db.feeds)
    ∧ (db.feeds.find? (fun g => url == "" || g.feed == url) = none →
        (doc.title = "" ∨ db.feeds.find? (fun h => h.title == doc.title) = none) →
        (addFeed db fetch url).2 = .ok (createdFeed db doc url)
          ∧ (addFeed db fetch url).1.feeds = db.feeds ++ [createdFeed db doc url])
    ∧ addFeed (addFeed db fetch url).1 fetch url = addFeed db fetch url := by
  refine ⟨?_, ?_, ?_, ?_⟩
  · intro f hf
    exact addFeed_url_found db fetch url doc f hfetch hf
  · intro g hnone hte hg
    rw [addFeed_title_found db fetch url doc g hfetch hnone hte hg]
    exact ⟨rfl, imageBranch_feeds db g.id doc.image⟩
  · intro hnone hcreate
    rw [addFeed_create db fetch url doc hfetch hnone hcreate]
    exact ⟨rfl, imageBranch_feeds _ db.nextFeedId doc.image⟩
  · cases hA : db.feeds.find? (fun g => url == "" || g.feed == url) with
    | some f =>
      have h1 := addFeed_url_found db fetch url doc f hfetch hA
      rw [h1]
      exact h1
    | none =>
      by_cases htitle : doc.title = ""
      · exact addFeed_idem_create db fetch url doc hfetch hA (Or.inl htitle)
      · cases hT : db.feeds.find? (fun h => h.title == doc.title) with
        | none => exact addFeed_idem_create db fetch url doc hfetch hA (Or.inr hT)
        | some g =>
          have h1 := addFeed_title_found db fetch url doc g hfetch hA htitle hT
          have hfeeds : (addFeed db fetch url).1.feeds = db.feeds := by
            rw [h1]
            exact imageBranch_feeds db g.id doc.image
          have hA2 : (addFeed db fetch url).1.feeds.find?
              (fun g => url == "" || g.feed == url) = none := by
            rw [hfeeds]
            exact hA
          have hT2 : (addFeed db fetch url).1.feeds.find?
              (fun h => h.title == doc.title) = some g := by
            rw [hfeeds]
            exact hT
          have h2 := addFeed_title_found (addFeed db fetch url).1 fetch url doc g
            hfetch hA2 htitle hT2
          rw [h2, h1]
          cases himg : doc.image with
          | none => rfl
          | some img =>
            show (firstOrCreateImage (firstOrCreateImage db g.id _) g.id _, _)
              = (firstOrCreateImage db g.id _, _)
            rw [firstOrCreateImage_idem db g.id _ rfl]

def c3doc : FeedDoc := { title := "Cast", description := "d", link := "l" }

def c3fetch : String → Except String FeedDoc := fun _ => .ok c3doc

def c3f1 : FeedRec := { id := 1, title := "Cast", feed := "u" }

def c3dbU : DB := { feeds := [c3f1], nextFeedId := 2 }

def c3g : FeedRec := { id := 1, title := "Cast", feed := "old-url" }

def c3dbT : DB := { feeds := [c3g], nextFeedId := 2 }

/-- Witness for C3: same-URL registration returns the stored feed unchanged;
a new URL with a matching title returns the stored feed and keeps its old
URL; an empty store gets the created record; re-registration is a no-op. -/
theorem c3_feed_resolution_witness :
    addFeed c3dbU c3fetch "u" = (c3dbU, .ok c3f1)
    ∧ (addFeed c3dbT c3fetch "new-url").2 = .ok c3g
    ∧ (addFeed c3dbT c3fetch "new-url").1.feeds = [c3g]
    ∧ (addFeed ({ } : DB) c3fetch "u").1.feeds = [createdFeed { } c3doc "u"]
    ∧ addFeed (addFeed ({ } : DB) c3fetch "u").1 c3fetch "u" = addFeed ({ } : DB) c3fetch "u" := by
  have hU := (c3_feed_resolution c3dbU c3fetch "u" c3doc rfl).1 c3f1 (by decide)
  have hT := (c3_feed_resolution c3dbT c3fetch "new-url" c3doc rfl).2.1 c3g
    (by decide) (by decide) (by decide)
  have hC := (c3_feed_resolution ({ } : DB) c3fetch "u" c3doc rfl).2.2.1 (by decide)
    (Or.inr (by decide))
  have hI := (c3_feed_resolution ({ } : DB) c3fetch "u" c3doc rfl).2.2.2
  exact ⟨hU, hT.1, hT.2, hC.2, hI⟩

/-! ### Publish-pipeline trace lemmas for the halting analysis -/

theorem downloadEpisode_evs (env : PubEnv) (db : DB) (item : ItemRec) :
    (downloadEpisode env db item).2 = []
    ∨ (downloadEpisode env db item).2 = [Ev.download item.id] := by
  unfold downloadEpisode
  split
  · exact Or.inl rfl
  · split
    · exact Or.inr rfl
    · exact Or.inr rfl

theorem publishToTheChannel_evs (env : PubEnv) (feed : FeedRec) (item : ItemRec)
    (file : String) :
    (publishToTheChannel env feed item file).2 = []
    ∨ (publishToTheChannel env feed item file).2 = [Ev.sendAttempt item.id] := by
  unfold publishToTheChannel
  split
  · exact Or.inl rfl
  · split
    · exact Or.inl rfl
    · split
      · exact Or.inr rfl
      · split
        · exact Or.inr rfl
        · split
          · exact Or.inr rfl
          · exact Or.inr rfl

theorem updateItem_ids (db : DB) (it : ItemRec) :
    (updateItem db it).items.map ItemRec.id = db.items.map ItemRec.id := by
  unfold updateItem
  simp only []
  rw [List.map_map]
  apply List.map_congr_left
  intro r _
  simp only [Function.comp]
  split <;> rfl

/-- The per-item body of publish either leaves the store alone or marks the
processed item. -/
theorem publishItemStep_db (env : PubEnv) (db : DB) (feed : FeedRec) (it : ItemRec) :
    (publishItemStep env db feed it).1 = db
    ∨ (publishItemStep env db feed it).1 = updateItem db it := by
  unfold publishItemStep
  rcases downloadEpisode env db it with ⟨res, evs⟩
  cases res with
  | error e => exact Or.inr rfl
  | ok path =>
    simp only []
    by_cases hp : (path == "") = true
    · rw [if_pos hp]
      exact Or.inr rfl
    · rw [if_neg hp]
      rcases publishToTheChannel env feed it path with ⟨res2, evs2⟩
      cases res2 with
      | some e =>
        simp only []
        by_cases hc : isConfigErr e = true
        · rw [if_pos hc]
          exact Or.inl rfl
        · rw [if_neg hc]
          exact Or.inl rfl
      | none => exact Or.inr rfl

theorem publishItemStep_ids (env : PubEnv) (db : DB) (feed : FeedRec) (it : ItemRec) :
    (publishItemStep env db feed it).1.items.map ItemRec.id
      = db.items.map ItemRec.id := by
  rcases publishItemStep_db env db feed it with h | h
  · rw [h]
  · rw [h]
    exact updateItem_ids db it

theorem stateOf_step_pres (env : PubEnv) (db : DB) (feed : FeedRec) (it : ItemRec)
    (j : Nat) (hj : j ≠ it.id) :
    stateOf (publishItemStep env db feed it).1 j = stateOf db j := by
  rcases publishItemStep_db env db feed it with h | h
  · rw [h]
  · rw [h, stateOf_updateItem, if_neg hj]

/-- A configuration failure recorded by the per-item body of publish names
the processed item, halts, leaves the store untouched, and closes the
body's trace with the failure and the process exit. -/
theorem publishItemStep_cf (env : PubEnv) (db : DB) (feed : FeedRec) (it : ItemRec)
    (j : Nat) :
    Ev.configFailure j ∈ (publishItemStep env db feed it).2.1 →
      j = it.id ∧ (publishItemStep env db feed it).2.2 = true
        ∧ (publishItemStep env db feed it).1 = db
        ∧ ∃ pre, (publishItemStep env db feed it).2.1
            = pre ++ [Ev.configFailure j, Ev.exitProcess] := by
  unfold publishItemStep
  rcases hdl : downloadEpisode env db it with ⟨res, evs⟩
  have hevs : evs = [] ∨ evs = [Ev.download it.id] := by
    have h := downloadEpisode_evs env db it
    rw [hdl] at h
    exact h
  cases res with
  | error e =>
    intro hj
    exfalso
    rcases hevs with h | h <;> subst h <;> simp at hj
  | ok path =>
    simp only []
    by_cases hp : (path == "") = true
    · rw [if_pos hp]
      intro hj
      exfalso
      rcases hevs with h | h <;> subst h <;> simp at hj
    · rw [if_neg hp]
      rcases hsend : publishToTheChannel env feed it path with ⟨res2, evs2⟩
      have hevs2 : evs2 = [] ∨ evs2 = [Ev.sendAttempt it.id] := by
        have h := publishToTheChannel_evs env feed it path
        rw [hsend] at h
        exact h
      cases res2 with
      | none =>
        intro hj
        exfalso
        rcases hevs with h | h <;> rcases hevs2 with h2 | h2 <;> subst h <;> subst h2 <;>
          simp at hj
      | some e =>
        simp only []
        by_cases hc : isConfigErr e = true
        · rw [if_pos hc]
          intro hj
          have hjid : j = it.id := by
            rcases hevs with h | h <;> rcases hevs2 with h2 | h2 <;> subst h <;> subst h2 <;>
              simpa using hj
          subst hjid
          exact ⟨rfl, rfl, rfl, ⟨evs ++ evs2, by simp⟩⟩
        · rw [if_neg hc]
          intro hj
          exfalso
          rcases hevs with h | h <;> rcases hevs2 with h2 | h2 <;> subst h <;> subst h2 <;>
            simp at hj

theorem publishItemStep_nohalt_cf (env : PubEnv) (db : DB) (feed : FeedRec) (it : ItemRec)
    (j : Nat) (hh : (publishItemStep env db feed it).2.2 = false) :
    Ev.configFailure j ∉ (publishItemStep env db feed it).2.1 := by
  intro hj
  have h := publishItemStep_cf env db feed it j hj
  rw [h.2.1] at hh
  exact absurd hh (by simp)

theorem find?_id_of_nodup :
    ∀ {l : List ItemRec}, (l.map ItemRec.id).Nodup →
      ∀ {r : ItemRec}, r ∈ l → l.find? (fun x => x.id == r.id) = some r := by
  intro l
  induction l with
  | nil =>
    intro _ r hr
    cases hr
  | cons a t ih =>
    intro hnd r hr
    rw [List.map_cons, List.nodup_cons] at hnd
    rcases List.mem_cons.1 hr with h | h
    · subst h
      simp [List.find?_cons]
    · have hne : (a.id == r.id) = false := by
        simp only [beq_eq_false_iff_ne]
        intro hid
        exact hnd.1 (hid ▸ List.mem_map_of_mem ItemRec.id h)
      simp only [List.find?_cons, hne]
      exact ih hnd.2 h

theorem stateOf_of_mem {db : DB} (hnd : (db.items.map ItemRec.id).Nodup)
    {r : ItemRec} (hr : r ∈ db.items) : stateOf db r.id = some r.tgPublished := by
  unfold stateOf
  rw [find?_id_of_nodup hnd hr]
  rfl

/-- Membership in the unpublished-items query. -/
theorem mem_getUnpublishedItems (db : DB) (feed : FeedRec) (it : ItemRec) :
    it ∈ getUnpublishedItems db feed ↔
      (it ∈ db.items ∧ it.feedId = feed.id ∧ it.tgPublished = 0) := by
  unfold getUnpublishedItems
  rw [(List.perm_insertionSort itemPPLe _).mem_iff, List.mem_filter]
  simp

theorem nodup_ids_getUnpublished (db : DB) (f : FeedRec)
    (hnd : (db.items.map ItemRec.id).Nodup) :
    ((getUnpublishedItems db f).map ItemRec.id).Nodup := by
  have hperm := (List.perm_insertionSort itemPPLe
    (db.items.filter (fun r => r.feedId == f.id && r.tgPublished == 0))).map ItemRec.id
  have h1 : ((db.items.filter
      (fun r => r.feedId == f.id && r.tgPublished == 0)).map ItemRec.id).Nodup :=
    List.Nodup.sublist (List.Sublist.map ItemRec.id (List.filter_sublist _)) hnd
  exact hperm.nodup_iff.2 h1

theorem itemsLoop_nohalt_cf (env : PubEnv) (feed : FeedRec) :
    ∀ (its : List ItemRec) (db : DB),
      (publishItemsLoop env feed its db).2.2 = false →
      ∀ j, Ev.configFailure j ∉ (publishItemsLoop env feed its db).2.1 := by
  intro its
  induction its with
  | nil =>
    intro db _ j hj
    simp [publishItemsLoop] at hj
  | cons it rest ih =>
    intro db hh j hj
    simp only [publishItemsLoop] at hh hj
    by_cases hs : (publishItemStep env db feed it).2.2 = true
    · rw [if_pos hs] at hh
      rw [hs] at hh
      exact absurd hh (by simp)
    · rw [if_neg hs] at hh hj
      rcases List.mem_append.1 hj with h | h
      · exact publishItemStep_nohalt_cf env db feed it j
          (by simpa using hs) h
      · exact ih (publishItemStep env db feed it).1 hh j h

theorem itemsLoop_ids (env : PubEnv) (feed : FeedRec) :
    ∀ (its : List ItemRec) (db : DB),
      (publishItemsLoop env feed its db).1.items.map ItemRec.id
        = db.items.map ItemRec.id := by
  intro its
  induction its with
  | nil =>
    intro db
    rfl
  | cons it rest ih =>
    intro db
    simp only [publishItemsLoop]
    by_cases hs : (publishItemStep env db feed it).2.2 = true
    · rw [if_pos hs]
      exact publishItemStep_ids env db feed it
    · rw [if_neg hs]
      simp only []
      rw [ih (publishItemStep env db feed it).1]
      exact publishItemStep_ids env db feed it

/-- A configuration failure inside the inner publish loop halts the loop,
closes the whole trace with the failure and the exit, and leaves the row it
names unpublished, provided every selected row was unpublished at entry and
rows have distinct ids. -/
theorem itemsLoop_cf (env : PubEnv) (feed : FeedRec) :
    ∀ (its : List ItemRec) (db : DB) (j : Nat),
      (∀ it ∈ its, stateOf db it.id = some 0) →
      ((its.map ItemRec.id).Nodup) →
      Ev.configFailure j ∈ (publishItemsLoop env feed its db).2.1 →
        (publishItemsLoop env feed its db).2.2 = true
        ∧ (∃ pre, (publishItemsLoop env feed its db).2.1
            = pre ++ [Ev.configFailure j, Ev.exitProcess])
        ∧ stateOf (publishItemsLoop env feed its db).1 j = some 0 := by
  intro its
  induction its with
  | nil =>
    intro db j _ _ hj
    simp [publishItemsLoop] at hj
  | cons it rest ih =>
    intro db j hst hnd hj
    rw [List.map_cons, List.nodup_cons] at hnd
    simp only [publishItemsLoop] at hj ⊢
    by_cases hs : (publishItemStep env db feed it).2.2 = true
    · rw [if_pos hs] at hj ⊢
      obtain ⟨hjid, _, hdb, pre, hpre⟩ := publishItemStep_cf env db feed it j hj
      refine ⟨hs, ⟨pre, hpre⟩, ?_⟩
      rw [hdb, hjid]
      exact hst it (by simp)
    · rw [if_neg hs] at hj ⊢
      simp only [] at hj ⊢
      have hjrest : Ev.configFailure j ∈
          (publishItemsLoop env feed rest (publishItemStep env db feed it).1).2.1 := by
        rcases List.mem_append.1 hj with h | h
        · exact absurd h (publishItemStep_nohalt_cf env db feed it j (by simpa using hs))
        · exact h
      have hst2 : ∀ u ∈ rest, stateOf (publishItemStep env db feed it).1 u.id = some 0 := by
        intro u hu
        have hne : u.id ≠ it.id := by
          intro he
          exact hnd.1 (he ▸ List.mem_map_of_mem ItemRec.id hu)
        rw [stateOf_step_pres env db feed it u.id hne]
        exact hst u (by simp [hu])
      obtain ⟨hh2, ⟨pre2, hpre2⟩, hs2⟩ :=
        ih (publishItemStep env db feed it).1 j hst2 hnd.2 hjrest
      refine ⟨hh2, ⟨(publishItemStep env db feed it).2.1 ++ pre2, ?_⟩, hs2⟩
      rw [hpre2, List.append_assoc]

/-- The outer publish loop: a configuration failure ends the whole trace at
once with the failure and the process exit, and the row it names is still
unpublished in the returned store. -/
theorem feedsLoop_cf (env : PubEnv) :
    ∀ (fs : List FeedRec) (db : DB) (j : Nat),
      (db.items.map ItemRec.id).Nodup →
      Ev.configFailure j ∈ (publishFeedsLoop env fs db).2.1 →
        (∃ pre, (publishFeedsLoop env fs db).2.1
            = pre ++ [Ev.configFailure j, Ev.exitProcess])
        ∧ stateOf (publishFeedsLoop env fs db).1 j = some 0 := by
  intro fs
  induction fs with
  | nil =>
    intro db j _ hj
    simp [publishFeedsLoop] at hj
  | cons f rest ih =>
    intro db j hnd hj
    simp only [publishFeedsLoop] at hj ⊢
    have hstits : ∀ it ∈ getUnpublishedItems db f, stateOf db it.id = some 0 := by
      intro it hit
      obtain ⟨hin, _, h0⟩ := (mem_getUnpublishedItems db f it).1 hit
      rw [stateOf_of_mem hnd hin, h0]
    have hndits := nodup_ids_getUnpublished db f hnd
    by_cases hs : (publishItemsLoop env f (getUnpublishedItems db f) db).2.2 = true
    · rw [if_pos hs] at hj ⊢
      obtain ⟨_, hpre, hstate⟩ :=
        itemsLoop_cf env f (getUnpublishedItems db f) db j hstits hndits hj
      exact ⟨hpre, hstate⟩
    · rw [if_neg hs] at hj ⊢
      simp only [] at hj ⊢
      have hjrest : Ev.configFailure j ∈ (publishFeedsLoop env rest
          (publishItemsLoop env f (getUnpublishedItems db f) db).1).2.1 := by
        rcases List.mem_append.1 hj with h | h
        · exact absurd h (itemsLoop_nohalt_cf env f (getUnpublishedItems db f) db
            (by simpa using hs) j)
        · exact h
      have hnd2 : ((publishItemsLoop env f (getUnpublishedItems db f) db).1.items.map
          ItemRec.id).Nodup := by
        rw [itemsLoop_ids]
        exact hnd
      obtain ⟨⟨pre2, hpre2⟩, hs2⟩ :=
        ih (publishItemsLoop env f (getUnpublishedItems db f) db).1 j hnd2 hjrest
      refine ⟨⟨(publishItemsLoop env f (getUnpublishedItems db f) db).2.1 ++ pre2, ?_⟩, hs2⟩
      rw [hpre2, List.append_assoc]

/-- In publishOneItem's per-feed body a configuration failure never comes
with a mark-published effect for the same item: the failing item stays
unpublished (but the body does not halt the cycle). -/
theorem publishOneFeedStep_cf_no_mark (env : PubEnv) (db : DB) (feed : FeedRec) (k : Nat) :
    Ev.configFailure k ∈ (publishOneFeedStep env db feed).2 →
      Ev.markPublished k ∉ (publishOneFeedStep env db feed).2 := by
  unfold publishOneFeedStep
  split
  · intro hk
    simp at hk
  · rename_i item _
    rcases hdl : downloadEpisode env db item with ⟨res, evs⟩
    have hevs : evs = [] ∨ evs = [Ev.download item.id] := by
      have h := downloadEpisode_evs env db item
      rw [hdl] at h
      exact h
    cases res with
    | error e =>
      intro hk
      exfalso
      rcases hevs with h | h <;> subst h <;> simp at hk
    | ok path =>
      simp only []
      by_cases hp : (path == "") = true
      · rw [if_pos hp]
        intro hk
        exfalso
        rcases hevs with h | h <;> subst h <;> simp at hk
      · rw [if_neg hp]
        rcases hsend : publishToTheChannel env feed item path with ⟨res2, evs2⟩
        have hevs2 : evs2 = [] ∨ evs2 = [Ev.sendAttempt item.id] := by
          have h := publishToTheChannel_evs env feed item path
          rw [hsend] at h
          exact h
        cases res2 with
        | none =>
          intro hk
          exfalso
          rcases hevs with h | h <;> rcases hevs2 with h2 | h2 <;> subst h <;> subst h2 <;>
            simp at hk
        | some e =>
          simp only []
          by_cases hc : isConfigErr e = true
          · rw [if_pos hc]
            intro _ hmk
            rcases hevs with h | h <;> rcases hevs2 with h2 | h2 <;> subst h <;> subst h2 <;>
              simp at hmk
          · rw [if_neg hc]
            intro hk
            exfalso
            rcases hevs with h | h <;> rcases hevs2 with h2 | h2 <;> subst h <;> subst h2 <;>
              simp at hk

/-- C8 amended: in the publish-all cycle a missing-credential configuration
failure halts everything at once — the trace ends with the failure and the
process exit, and the failing row is still unpublished in the returned
store; in the one-item-per-feed cycle the failing item is likewise never
marked published by its step, but that cycle does not halt (see the
counterexample). -/
theorem c8_config_error_behaviour (env : PubEnv) (db : DB) (j : Nat)
    (hids : (db.items.map ItemRec.id).Nodup)
    (hcf : Ev.configFailure j ∈ (publish env db).2.1) :
    (∃ pre, (publish env db).2.1 = pre ++ [Ev.configFailure j, Ev.exitProcess])
    ∧ stateOf (publish env db).1 j = some 0
    ∧ (∀ (env2 : PubEnv) (db2 : DB) (feed : FeedRec) (k : Nat),
        Ev.configFailure k ∈ (publishOneFeedStep env2 db2 feed).2 →
          Ev.markPublished k ∉ (publishOneFeedStep env2 db2 feed).2) := by
  have h := feedsLoop_cf env (getReadyFeeds db) db j hids hcf
  exact ⟨h.1, h.2, fun env2 db2 feed k => publishOneFeedStep_cf_no_mark env2 db2 feed k⟩

def c8item1 : ItemRec :=
  { id := 1, title := "i1", feedId := 1, tgPublished := 0, publishedParsed := some 5 }

def c8item2 : ItemRec :=
  { id := 2, title := "i2", feedId := 2, tgPublished := 0, publishedParsed := some 3 }

def c8db : DB :=
  { feeds := [{ id := 1, title := "f1", feed := "u1", publishReady := true },
              { id := 2, title := "f2", feed := "u2", publishReady := true }],
    items := [c8item1, c8item2],
    enclosures := [{ id := 1, url := "e1", length := 7, itemId := 1 },
                   { id := 2, url := "e2", length := 7, itemId := 2 }],
    nextFeedId := 3, nextItemId := 3, nextEncId := 3 }

def c8env : PubEnv :=
  { tokenSet := false, send := fun _ => none, downloadFile := fun _ => .ok "x.mp3" }

/-- Counterexample to C8 as stated: with the bot token missing, the
one-item-per-feed cycle (publishOneItem) records the configuration failure
for feed 1's item and then still downloads and processes feed 2's item —
the cycle does not halt on the configuration error. -/
theorem c8_counterexample :
    (publishOneItem c8env c8db).2 =
      [Ev.download 1, Ev.configFailure 1, Ev.deleteFile 1,
       Ev.download 2, Ev.configFailure 2, Ev.deleteFile 2] := by
  decide

def c8dbOne : DB :=
  { feeds := [{ id := 1, title := "f1", feed := "u1", publishReady := true }],
    items := [c8item1],
    enclosures := [{ id := 1, url := "e1", length := 7, itemId := 1 }],
    nextFeedId := 2, nextItemId := 2, nextEncId := 2 }

/-- Witness for the amended C8: a publish-all run with the token missing
ends its trace right at the configuration failure and exit, and the failing
row stays unpublished. -/
theorem c8_config_error_behaviour_witness :
    stateOf (publish c8env c8dbOne).1 1 = some 0
    ∧ (publish c8env c8dbOne).2.1
        = [Ev.download 1] ++ [Ev.configFailure 1, Ev.exitProcess] := by
  have h := c8_config_error_behaviour c8env c8dbOne 1 (by decide) (by decide)
  exact ⟨h.2.1, by decide⟩

end Echopan
